import Mathlib

/-!
Shallow embedding of the Cadenza realtime core (crates/cadenza-core,
crates/cadenza-domain-eval) and proofs about it.

Modelling conventions, used consistently below:
* Machine integers are `Nat`/`Int`.  `u64` values live in `Nat`; where the
  source uses `saturating_add`/`saturating_sub` we saturate explicitly
  (`satAddU64`, `satSubU64`; note `Nat` subtraction already saturates at 0,
  exactly like `u64::saturating_sub`).  `i64` saturating addition clamps to
  `[-2^63, 2^63-1]`.  Plain `+`/`-`/`*` on in-range values and the `i128`
  intermediates of the tempo math are modelled by unbounded `Int`
  arithmetic; Rust integer division (`/`, truncation toward zero) is
  `Int.tdiv`.
* `f32`/`f64` values are modelled as exact rationals; `f64::round`
  (round half away from zero) is `rustRound`; the saturating float-to-int
  casts (`as u64`, `as i64`) are `castU64`/`castI64`.
* Fallible or stateful code becomes explicit state passing: each Rust
  method taking `&mut self` becomes a function returning the new state
  (and the values/events the method produced).
-/

/-- Largest `u64` value. -/
def u64Max : ℕ := 2 ^ 64 - 1

/-- Largest `i64` value. -/
def i64Max : ℤ := 2 ^ 63 - 1

/-- Smallest `i64` value. -/
def i64Min : ℤ := -(2 ^ 63)

/-- `u64::saturating_add`. -/
def satAddU64 (a b : ℕ) : ℕ := min (a + b) u64Max

/-- `u64::saturating_sub` (on `Nat`-represented `u64` values this is
truncated subtraction). -/
def satSubU64 (a b : ℕ) : ℕ := a - b

/-- `i64::saturating_add`. -/
def satAddI64 (a b : ℤ) : ℤ := max i64Min (min (a + b) i64Max)

/-- `usize::saturating_add` (64-bit target). -/
def satAddUsize (a b : ℕ) : ℕ := min (a + b) u64Max

/-- `f64::round`: round half away from zero. -/
def rustRound (q : ℚ) : ℤ := if 0 ≤ q then ⌊q + 1 / 2⌋ else -⌊-q + 1 / 2⌋

/-- Saturating cast of a (rounded, integral) `f64` to `u64` (`as u64`). -/
def castU64 (z : ℤ) : ℕ := min z.toNat u64Max

/-- Saturating cast of a (rounded, integral) `f64` to `i64` (`as i64`). -/
def castI64 (z : ℤ) : ℤ := max i64Min (min z i64Max)

/-! ### Ports: shared data model (crates/cadenza-ports/src/types.rs, midi.rs,
playback.rs; crates/cadenza-domain-score/src/model.rs) -/

/-- `Bus`: one of the three mix paths. -/
inductive Bus
  | UserMonitor
  | Autopilot
  | MetronomeFx
deriving DecidableEq, Repr

/-- `MidiLikeEvent`: NoteOn/NoteOff/Cc64. -/
inductive MidiLikeEvent
  | NoteOn (note velocity : ℕ)
  | NoteOff (note : ℕ)
  | Cc64 (value : ℕ)
deriving DecidableEq, Repr

/-- `ScheduledEvent { sample_time, bus, event }`. -/
structure ScheduledEvent where
  sample_time : ℕ
  bus : Bus
  event : MidiLikeEvent
deriving DecidableEq, Repr

/-- `LoopRange { start_tick, end_tick }`. -/
structure LoopRange where
  start_tick : ℤ
  end_tick : ℤ
deriving DecidableEq, Repr

/-- `Hand` tag of score events. -/
inductive Hand
  | Left
  | Right
deriving DecidableEq, Repr

/-- `TempoPoint { tick, us_per_quarter }`. -/
structure TempoPoint where
  tick : ℤ
  us_per_quarter : ℕ
deriving DecidableEq, Repr

/-- `PlaybackMidiEvent { tick, event, hand }`. -/
structure PlaybackMidiEvent where
  tick : ℤ
  event : MidiLikeEvent
  hand : Option Hand
deriving DecidableEq, Repr

/-- `TargetEvent { id, tick, notes, hand, measure_index }`. -/
structure TargetEvent where
  id : ℕ
  tick : ℤ
  notes : List ℕ
  hand : Option Hand
  measure_index : Option ℕ
deriving DecidableEq, Repr

/-! ### Audio parameters (crates/cadenza-core/src/audio_params.rs).
The atomics hold f32 bit patterns; we model the stored volumes directly as
rationals and the two flags as booleans. -/

/-- `AudioParams`: master/bus volumes plus the monitor and playback flags. -/
structure AudioParams where
  master : ℚ
  bus_user : ℚ
  bus_autopilot : ℚ
  bus_metronome : ℚ
  monitor_enabled : Bool
  playback_enabled : Bool
deriving DecidableEq, Repr

/-- `AudioParams::bus`: a bus volume read; returns 0 for the score-driven
buses while playback is disabled. -/
def AudioParams.bus (p : AudioParams) (b : Bus) : ℚ :=
  if ¬ p.playback_enabled ∧ (b = Bus.Autopilot ∨ b = Bus.MetronomeFx) then 0
  else
    match b with
    | Bus.UserMonitor => p.bus_user
    | Bus.Autopilot => p.bus_autopilot
    | Bus.MetronomeFx => p.bus_metronome

/-! ### Audio graph (crates/cadenza-core/src/audio_graph.rs) -/

/-- `midi_event_rank`: pedal-down Cc64 = 0, NoteOff = 1, NoteOn = 2,
pedal-up Cc64 = 3. -/
def midi_event_rank : MidiLikeEvent → ℕ
  | MidiLikeEvent.Cc64 value => if 64 ≤ value then 0 else 3
  | MidiLikeEvent.NoteOff _ => 1
  | MidiLikeEvent.NoteOn _ _ => 2

/-- `midi_event_note_key`: the note of NoteOn/NoteOff, 0 for Cc64. -/
def midi_event_note_key : MidiLikeEvent → ℕ
  | MidiLikeEvent.NoteOn note _ => note
  | MidiLikeEvent.NoteOff note => note
  | MidiLikeEvent.Cc64 _ => 0

/-- The sort key `(sample_time, event rank, note key)` used by
`collect_events`. -/
def eventKey (e : ScheduledEvent) : ℕ × ℕ × ℕ :=
  (e.sample_time, midi_event_rank e.event, midi_event_note_key e.event)

/-- Lexicographic comparison of sort keys (`Ordering::then_with` chain). -/
def keyLe : ℕ × ℕ × ℕ → ℕ × ℕ × ℕ → Bool
  | (a1, a2, a3), (b1, b2, b3) =>
    decide (a1 < b1) ||
      (decide (a1 = b1) &&
        (decide (a2 < b2) || (decide (a2 = b2) && decide (a3 ≤ b3))))

/-- The comparator of `collect_events`' stable sort, as a boolean `≤`. -/
def eventLe (a b : ScheduledEvent) : Bool := keyLe (eventKey a) (eventKey b)

/-- The sort comparator as a relation.  Rust's `sort_by` is a stable sort;
it is modelled by the (equally stable) insertion sort, which evaluates by
kernel reduction. -/
def eventLeP (a b : ScheduledEvent) : Prop := eventLe a b = true

instance : DecidableRel eventLeP := fun a b => instDecidableEqBool (eventLe a b) true

instance : IsTotal ScheduledEvent eventLeP where
  total a b := by
    rcases a with ⟨s1, b1, e1⟩
    rcases b with ⟨s2, b2, e2⟩
    simp only [eventLeP, eventLe, eventKey, keyLe]
    by_cases h : s1 = s2 <;> simp [h] <;> omega

instance : IsTrans ScheduledEvent eventLeP where
  trans a b c := by
    rcases a with ⟨s1, b1, e1⟩
    rcases b with ⟨s2, b2, e2⟩
    rcases c with ⟨s3, b3, e3⟩
    simp only [eventLeP, eventLe, eventKey, keyLe]
    simp only [Bool.or_eq_true, Bool.and_eq_true, decide_eq_true_eq]
    omega

/-- The `while let Ok(event) = self.consumer.pop()` loop of
`collect_events`: pop queued events with `sample_time < blockEnd`, stopping
at (and saving as pending) the first event at or past the block end.
Returns (collected events, new pending, remaining queue). -/
def drainQueue (blockEnd : ℕ) :
    List ScheduledEvent → List ScheduledEvent × Option ScheduledEvent × List ScheduledEvent
  | [] => ([], none, [])
  | e :: rest =>
    if e.sample_time < blockEnd then
      let r := drainQueue blockEnd rest
      (e :: r.1, r.2.1, r.2.2)
    else ([], some e, rest)

/-- `AudioGraph::collect_events`: re-check the saved pending event, drain
the queue, stable-sort by `(sample_time, rank, note_key)`.  When the
pending event still lies past the block end the method returns early with
no events and the queue untouched. -/
def collect_events (pending : Option ScheduledEvent) (queue : List ScheduledEvent)
    (blockEnd : ℕ) : List ScheduledEvent × Option ScheduledEvent × List ScheduledEvent :=
  match pending with
  | some e =>
    if e.sample_time < blockEnd then
      let r := drainQueue blockEnd queue
      (List.insertionSort eventLeP (e :: r.1), r.2.1, r.2.2)
    else ([], some e, queue)
  | none =>
    let r := drainQueue blockEnd queue
    (List.insertionSort eventLeP r.1, r.2.1, r.2.2)

/-- Whether an event is a NoteOn (`matches!(event.event, NoteOn)`). -/
def MidiLikeEvent.isNoteOn : MidiLikeEvent → Bool
  | MidiLikeEvent.NoteOn _ _ => true
  | _ => false

/-- The event-dispatch walk of `AudioGraph::render`: for each collected
event (in sorted order) skip events at or past the block end, skip
score-bus NoteOns while playback is disabled, and otherwise dispatch
`synth.handle_event(bus, event, event_sample)` where `event_sample` is the
event time clamped forward to the render cursor.  Returns the list of
`handle_event` calls in order. -/
def renderTrace (playback : Bool) (blockEnd : ℕ) :
    List ScheduledEvent → ℕ → List (Bus × MidiLikeEvent × ℕ)
  | [], _ => []
  | e :: rest, cursor =>
    if blockEnd ≤ e.sample_time then renderTrace playback blockEnd rest cursor
    else if ¬ playback ∧ (e.bus = Bus.Autopilot ∨ e.bus = Bus.MetronomeFx) ∧
        e.event.isNoteOn then
      renderTrace playback blockEnd rest cursor
    else
      let s := max e.sample_time cursor
      (e.bus, e.event, s) :: renderTrace playback blockEnd rest s

/-- Result of one audio callback: the `handle_event` calls made, the new
pending event, the remaining queue and the audio-clock value stored. -/
structure RenderResult where
  calls : List (Bus × MidiLikeEvent × ℕ)
  pending : Option ScheduledEvent
  queue : List ScheduledEvent
  clock : ℕ
deriving DecidableEq, Repr

/-- `AudioGraph::render` (event dispatch view): compute the block end,
collect and sort the due events, walk them dispatching to the synth, and
store `block_end` into the audio clock. -/
def AudioGraph.render (playback : Bool) (pending : Option ScheduledEvent)
    (queue : List ScheduledEvent) (start frames : ℕ) : RenderResult :=
  let blockEnd := satAddU64 start frames
  let c := collect_events pending queue blockEnd
  { calls := renderTrace playback blockEnd c.1 start
    pending := c.2.1
    queue := c.2.2
    clock := blockEnd }

/-! ### `AudioGraph::render_segment`.  The synth's per-bus block
contribution is abstracted as two functions from bus to sample list
(left/right channel); everything downstream of the `synth.render` calls is
translated literally. -/

/-- Result of `render_segment`: synth `render` calls made (in order) and
the produced output block plus the updated limiter gain. -/
structure SegmentOut where
  calls : List Bus
  out_l : List ℚ
  out_r : List ℚ
  limiter_gain : ℚ
deriving DecidableEq, Repr

/-- One bus pass of `render_segment`'s mixing loop: skip UserMonitor when
monitoring is disabled, otherwise render the bus and add it scaled by its
volume. -/
def mixBus (p : AudioParams) (synthL synthR : Bus → List ℚ)
    (acc : List Bus × List ℚ × List ℚ) (b : Bus) : List Bus × List ℚ × List ℚ :=
  if b = Bus.UserMonitor ∧ ¬ p.monitor_enabled then acc
  else
    let vol := p.bus b
    (acc.1 ++ [b],
      (acc.2.1.zipWith (fun o s => o + s * vol) (synthL b)),
      (acc.2.2.zipWith (fun o s => o + s * vol) (synthR b)))

/-- `AudioGraph::render_segment`: zero the output, mix the three buses in
fixed order (UserMonitor skipped while monitoring is disabled), apply the
master volume, then the one-pole soft limiter toward the 0.98 ceiling. -/
def render_segment (p : AudioParams) (synthL synthR : Bus → List ℚ)
    (frames : ℕ) (limiter_gain : ℚ) : SegmentOut :=
  let zero := List.replicate frames (0 : ℚ)
  let mixed := [Bus.UserMonitor, Bus.Autopilot, Bus.MetronomeFx].foldl
    (mixBus p synthL synthR) ([], zero, zero)
  let l1 := mixed.2.1.map (fun x => x * p.master)
  let r1 := mixed.2.2.map (fun x => x * p.master)
  let limit : ℚ := 98 / 100
  let peak := (l1 ++ r1).foldl (fun acc x => max acc |x|) 0
  let target_gain := if limit < peak then limit / peak else 1
  let coeff : ℚ := if target_gain < limiter_gain then 1 / 4 else 1 / 100
  let new_gain :=
    min (max (limiter_gain + coeff * (target_gain - limiter_gain)) 0) 1
  { calls := mixed.1
    out_l := if new_gain < 999 / 1000 then l1.map (fun x => x * new_gain) else l1
    out_r := if new_gain < 999 / 1000 then r1.map (fun x => x * new_gain) else r1
    limiter_gain := new_gain }

/-! ### Transport and tempo map (crates/cadenza-core/src/transport.rs) -/

/-- `ticks_to_us`: `ticks * us_per_quarter / ppq` in 128-bit width
(the `i128` intermediates are exact in `Int`; `/` truncates toward 0). -/
def ticks_to_us (ticks : ℤ) (us_per_quarter : ℕ) (ppq : ℕ) : ℤ :=
  Int.tdiv (ticks * us_per_quarter) ppq

/-- `us_to_ticks`: `us * ppq / us_per_quarter` in 128-bit width. -/
def us_to_ticks (us : ℤ) (us_per_quarter : ℕ) (ppq : ℕ) : ℤ :=
  Int.tdiv (us * ppq) us_per_quarter

/-- `micros_to_samples`: nonpositive micros map to 0, otherwise
`(micros * sample_rate / 1e6).round() as u64`. -/
def micros_to_samples (micros : ℤ) (sample_rate_hz : ℕ) : ℕ :=
  if micros ≤ 0 then 0
  else castU64 (rustRound ((micros : ℚ) * (sample_rate_hz : ℚ) / 1000000))

/-- `samples_to_micros`: `(sample * 1e6 / sample_rate).round() as i64`. -/
def samples_to_micros (sample : ℕ) (sample_rate_hz : ℕ) : ℤ :=
  castI64 (rustRound ((sample : ℚ) * 1000000 / (sample_rate_hz : ℚ)))

/-- `TempoSegment { start_tick, start_us, us_per_quarter }`. -/
structure TempoSegment where
  start_tick : ℤ
  start_us : ℤ
  us_per_quarter : ℕ
deriving DecidableEq, Repr

/-- `TempoMap { ppq, segments }`. -/
structure TempoMap where
  ppq : ℕ
  segments : List TempoSegment
deriving DecidableEq, Repr

/-- The segment-building loop of `TempoMap::new`: accumulate `start_us`
across consecutive sorted points. -/
def accumSegments (ppq : ℕ) : ℤ → List TempoPoint → List TempoSegment
  | _, [] => []
  | us, [p] => [⟨p.tick, us, p.us_per_quarter⟩]
  | us, p :: q :: rest =>
    ⟨p.tick, us, p.us_per_quarter⟩ ::
      accumSegments ppq (us + ticks_to_us (q.tick - p.tick) p.us_per_quarter ppq)
        (q :: rest)

/-- The `sort_by_key(|p| p.tick)` comparator.  Rust's `sort_by_key` is a
stable sort; it is modelled by the (equally stable) insertion sort. -/
def tickLeP (a b : TempoPoint) : Prop := a.tick ≤ b.tick

instance : DecidableRel tickLeP := fun a b => Int.decLe a.tick b.tick

instance : IsTotal TempoPoint tickLeP where
  total a b := by simp only [tickLeP]; omega

instance : IsTrans TempoPoint tickLeP where
  trans a b c := by simp only [tickLeP]; omega

/-- `TempoMap::new`: prepend a synthetic 500000 us/quarter point at tick 0
when the list is empty or does not start at tick 0, stable-sort by tick,
then build segments with accumulated `start_us`. -/
def TempoMap.new (ppq : ℕ) (points : List TempoPoint) : TempoMap :=
  let needSynthetic : Bool :=
    match points with
    | [] => true
    | p :: _ => decide (p.tick ≠ 0)
  let pts := if needSynthetic then ⟨0, 500000⟩ :: points else points
  ⟨ppq, accumSegments ppq 0 (List.insertionSort tickLeP pts)⟩

/-- `TempoMap::segment_for_tick`: scan segments in order keeping the last
whose `start_tick ≤ tick`, breaking at the first one past `tick`.  The
source indexes `segments[0]`; on the out-of-invariant empty list a default
segment stands in. -/
def TempoMap.segment_for_tick (m : TempoMap) (tick : ℤ) : TempoSegment :=
  (m.segments.takeWhile (fun s => decide (s.start_tick ≤ tick))).getLastD
    (m.segments.headD ⟨0, 0, 500000⟩)

/-- `TempoMap::segment_for_micros`: same scan keyed on `start_us`. -/
def TempoMap.segment_for_micros (m : TempoMap) (micros : ℤ) : TempoSegment :=
  (m.segments.takeWhile (fun s => decide (s.start_us ≤ micros))).getLastD
    (m.segments.headD ⟨0, 0, 500000⟩)

/-- `TempoMap::tick_to_micros`. -/
def TempoMap.tick_to_micros (m : TempoMap) (tick : ℤ) : ℤ :=
  let seg := m.segment_for_tick tick
  seg.start_us + ticks_to_us (tick - seg.start_tick) seg.us_per_quarter m.ppq

/-- `TempoMap::micros_to_tick`. -/
def TempoMap.micros_to_tick (m : TempoMap) (micros : ℤ) : ℤ :=
  let seg := m.segment_for_micros micros
  seg.start_tick + us_to_ticks (micros - seg.start_us) seg.us_per_quarter m.ppq

/-- `TempoMap::us_per_quarter_at`. -/
def TempoMap.us_per_quarter_at (m : TempoMap) (tick : ℤ) : ℕ :=
  (m.segment_for_tick tick).us_per_quarter

/-- `TransportState`. -/
inductive TransportState
  | Stopped
  | Playing
  | Paused
deriving DecidableEq, Repr

/-- `Transport` state. -/
structure Transport where
  state : TransportState
  ppq : ℕ
  sample_rate_hz : ℕ
  origin_sample : ℕ
  tempo_map : TempoMap
  tempo_multiplier : ℚ
  position_tick : ℤ
  position_sample : ℕ
  loop_range : Option LoopRange
deriving DecidableEq, Repr

/-- `Transport::new`. -/
def Transport.new (ppq : ℕ) (sample_rate_hz : ℕ) (tempo_points : List TempoPoint) :
    Transport :=
  { state := TransportState.Stopped
    ppq := ppq
    sample_rate_hz := sample_rate_hz
    origin_sample := 0
    tempo_map := TempoMap.new ppq tempo_points
    tempo_multiplier := 1
    position_tick := 0
    position_sample := 0
    loop_range := none }

/-- `Transport::tick_to_micros_scaled`:
`(tick_to_micros(tick) as f64 / tempo_multiplier).round() as i64`. -/
def Transport.tick_to_micros_scaled (t : Transport) (tick : ℤ) : ℤ :=
  castI64 (rustRound ((t.tempo_map.tick_to_micros tick : ℚ) / t.tempo_multiplier))

/-- `Transport::tick_to_sample_relative`. -/
def Transport.tick_to_sample_relative (t : Transport) (tick : ℤ) : ℕ :=
  micros_to_samples (t.tick_to_micros_scaled tick) t.sample_rate_hz

/-- `Transport::tick_to_sample`:
`origin_sample.saturating_add(micros_to_samples(tick_to_micros_scaled tick))`. -/
def Transport.tick_to_sample (t : Transport) (tick : ℤ) : ℕ :=
  satAddU64 t.origin_sample
    (micros_to_samples (t.tick_to_micros_scaled tick) t.sample_rate_hz)

/-- `Transport::sample_to_tick`. -/
def Transport.sample_to_tick (t : Transport) (sample : ℕ) : ℤ :=
  let relative_sample := satSubU64 sample t.origin_sample
  let micros := samples_to_micros relative_sample t.sample_rate_hz
  let scaled := castI64 (rustRound ((micros : ℚ) * t.tempo_multiplier))
  t.tempo_map.micros_to_tick scaled

/-- `Transport::seek`: set the tick and recompute `position_sample` under
the current origin. -/
def Transport.seek (t : Transport) (tick : ℤ) : Transport :=
  let t1 := { t with position_tick := tick }
  { t1 with position_sample := t1.tick_to_sample tick }

/-- `Transport::recalculate_origin`: keep `position_sample` and re-derive
the origin from the current `position_tick`. -/
def Transport.recalculate_origin (t : Transport) : Transport :=
  { t with origin_sample :=
      satSubU64 t.position_sample (t.tick_to_sample_relative t.position_tick) }

/-- `Transport::set_tempo_multiplier`: clamp at 0.1 from below and
recompute the origin. -/
def Transport.set_tempo_multiplier (t : Transport) (multiplier : ℚ) : Transport :=
  ({ t with tempo_multiplier := max multiplier (1 / 10) }).recalculate_origin

/-- `Transport::set_sample_rate`. -/
def Transport.set_sample_rate (t : Transport) (sample_rate_hz : ℕ) : Transport :=
  ({ t with sample_rate_hz := sample_rate_hz }).recalculate_origin

/-- `Transport::sync_to_sample_time`. -/
def Transport.sync_to_sample_time (t : Transport) (sample_time : ℕ) : Transport :=
  let t1 := { t with position_sample := sample_time }
  { t1 with position_tick := t1.sample_to_tick sample_time }

/-- `Transport::now_tick`. -/
def Transport.now_tick (t : Transport) : ℤ := t.position_tick

/-- `Transport::now_sample`. -/
def Transport.now_sample (t : Transport) : ℕ := t.position_sample

/-- `Transport::ms_to_ticks`: convert using the tempo at the current
position tick. -/
def Transport.ms_to_ticks (t : Transport) (ms : ℤ) : ℤ :=
  us_to_ticks (ms * 1000) (t.tempo_map.us_per_quarter_at t.position_tick) t.ppq

/-! ### Scheduler (crates/cadenza-core/src/scheduler.rs) -/

/-- `PlaybackMode`. -/
inductive PlaybackMode
  | Demo
  | Accompaniment
deriving DecidableEq, Repr

/-- `AccompanimentRoute { play_left, play_right }`. -/
structure AccompanimentRoute where
  play_left : Bool
  play_right : Bool
deriving DecidableEq, Repr

/-- `PlaybackSettings { mode, accompaniment }`. -/
structure PlaybackSettings where
  mode : PlaybackMode
  accompaniment : AccompanimentRoute
deriving DecidableEq, Repr

/-- `Scheduler` state (`config.lookahead_ms` inlined as a field). -/
structure Scheduler where
  lookahead_ms : ℕ
  events : List PlaybackMidiEvent
  cursor : ℕ
  queue : List ScheduledEvent
  loop_range : Option LoopRange
  settings : PlaybackSettings
  sample_rate_hz : ℕ
deriving DecidableEq, Repr

/-- `Scheduler::route_bus`: Demo mode routes everything to Autopilot;
Accompaniment drops hand-tagged events whose hand is muted. -/
def Scheduler.route_bus (s : Scheduler) (hand : Option Hand) : Option Bus :=
  match s.settings.mode with
  | PlaybackMode.Demo => some Bus.Autopilot
  | PlaybackMode.Accompaniment =>
    match hand with
    | some Hand.Left =>
      if ¬ s.settings.accompaniment.play_left then none else some Bus.Autopilot
    | some Hand.Right =>
      if ¬ s.settings.accompaniment.play_right then none else some Bus.Autopilot
    | none => some Bus.Autopilot

/-- `Scheduler::seek`: position the cursor at the first event with
`tick ≥ target` (or past the end) and clear the queue. -/
def Scheduler.seek (s : Scheduler) (tick : ℤ) : Scheduler :=
  { s with
    cursor := s.events.findIdx (fun e => decide (tick ≤ e.tick))
    queue := [] }

/-- The `while let Some(event) = self.events.get(self.cursor)` loop of
`Scheduler::schedule`, fuel-bounded (the cursor strictly advances in every
non-breaking iteration, so `events.length + 1` fuel is always enough).
Breaks past the look-ahead window; at a loop-range edge seeks both the
transport and the scheduler to the loop start and breaks; otherwise routes
the event and pushes it with `sample_time = transport.tick_to_sample`. -/
def scheduleLoop : ℕ → Scheduler → Transport → ℤ → Scheduler × Transport
  | 0, s, tr, _ => (s, tr)
  | fuel + 1, s, tr, windowEndTick =>
    match s.events[s.cursor]? with
    | none => (s, tr)
    | some ev =>
      if windowEndTick < ev.tick then (s, tr)
      else
        let hitLoopEdge :=
          match s.loop_range with
          | some lr => decide (lr.end_tick ≤ ev.tick)
          | none => false
        if hitLoopEdge then
          match s.loop_range with
          | some lr => (Scheduler.seek s lr.start_tick, tr.seek lr.start_tick)
          | none => (s, tr)
        else
          let s1 :=
            match s.route_bus ev.hand with
            | some bus =>
              { s with queue := s.queue ++
                  [ScheduledEvent.mk (tr.tick_to_sample ev.tick) bus ev.event] }
            | none => s
          scheduleLoop fuel { s1 with cursor := s1.cursor + 1 } tr windowEndTick

/-- `Scheduler::schedule`: compute the look-ahead window end in samples and
ticks, run the cursor loop, then drain the internal queue into the emitted
vector.  Returns (emitted events, new scheduler, new transport). -/
def Scheduler.schedule (s : Scheduler) (tr : Transport) :
    List ScheduledEvent × Scheduler × Transport :=
  let lookahead_samples :=
    castU64 (rustRound ((s.lookahead_ms : ℚ) * (s.sample_rate_hz : ℚ) / 1000))
  let window_end_sample := satAddU64 tr.now_sample lookahead_samples
  let window_end_tick := tr.sample_to_tick window_end_sample
  let r := scheduleLoop (s.events.length + 1) s tr window_end_tick
  (r.1.queue, { r.1 with queue := [] }, r.2)

/-! ### Judge (crates/cadenza-domain-eval/src/judge.rs) -/

/-- `WrongNotePolicy`. -/
inductive WrongNotePolicy
  | RecordOnly
  | DegradePerfect
deriving DecidableEq, Repr

/-- `AdvanceMode`. -/
inductive AdvanceMode
  | OnResolve
  | Aggressive
deriving DecidableEq, Repr

/-- `TimingWindowTicks { perfect, good }`. -/
structure TimingWindowTicks where
  perfect : ℤ
  good : ℤ
deriving DecidableEq, Repr

/-- `JudgeConfig` (`ChordRollTicks` newtype inlined as `chord_roll`). -/
structure JudgeConfig where
  window : TimingWindowTicks
  chord_roll : ℤ
  wrong_note_policy : WrongNotePolicy
  advance : AdvanceMode
deriving DecidableEq, Repr

/-- `Grade`. -/
inductive Grade
  | Perfect
  | Good
  | Miss
deriving DecidableEq, Repr

/-- `MissReason`. -/
inductive MissReason
  | Timeout
  | Skipped
deriving DecidableEq, Repr

/-- `JudgeEvent`. -/
inductive JudgeEvent
  | FocusChanged (target_id : Option ℕ)
  | Hit (target_id : ℕ) (grade : Grade) (delta_tick : ℤ) (wrong_notes : ℕ)
  | Miss (target_id : ℕ) (reason : MissReason) (missing_notes : ℕ) (wrong_notes : ℕ)
  | Stats (combo : ℕ) (score : ℤ) (hit : ℕ) (miss : ℕ) (wrong : ℕ)
deriving DecidableEq, Repr

/-- `PlayerNoteOn { tick, note, velocity }`. -/
structure PlayerNoteOn where
  tick : ℤ
  note : ℕ
  velocity : ℕ
deriving DecidableEq, Repr

/-- `StatsState` (u32/i64 counters modelled unbounded). -/
structure StatsState where
  combo : ℕ
  score : ℤ
  hit : ℕ
  miss : ℕ
  wrong : ℕ
deriving DecidableEq, Repr

/-- `TargetState`: the focused target's progress.  The `HashSet` of
expected notes is a `Finset`; the `HashMap note → tick` of matches is an
assoc list (insertion only happens for absent keys). -/
structure TargetState where
  expected : Finset ℕ
  matched : List (ℕ × ℤ)
  wrong_notes : ℕ
  first_match_tick : Option ℤ
deriving DecidableEq

/-- `HashMap::contains_key` on the assoc-list model. -/
def containsKey (l : List (ℕ × ℤ)) (n : ℕ) : Bool := l.any (fun p => p.1 == n)

/-- `Judge` state. -/
structure Judge where
  cfg : JudgeConfig
  targets : List TargetEvent
  idx : ℕ
  state : Option TargetState
  stats : StatsState
deriving DecidableEq

/-- `Judge::new`. -/
def Judge.new (cfg : JudgeConfig) : Judge :=
  { cfg := cfg, targets := [], idx := 0, state := none
    stats := ⟨0, 0, 0, 0, 0⟩ }

/-- `Judge::current_target`. -/
def Judge.current_target (j : Judge) : Option TargetEvent := j.targets[j.idx]?

/-- `Judge::current_focus`. -/
def Judge.current_focus (j : Judge) : Option ℕ :=
  (j.targets[j.idx]?).map TargetEvent.id

/-- Fresh focus state for a target (the closure inside
`Judge::build_state`). -/
def freshState (t : TargetEvent) : TargetState :=
  ⟨t.notes.toFinset, [], 0, none⟩

/-- `Judge::build_state`. -/
def Judge.build_state (j : Judge) : Option TargetState :=
  (j.targets[j.idx]?).map freshState

/-- `Judge::stats_event`. -/
def Judge.stats_event (j : Judge) : JudgeEvent :=
  JudgeEvent.Stats j.stats.combo j.stats.score j.stats.hit j.stats.miss j.stats.wrong

/-- `Judge::update_stats_on_miss` (sans the event push, done at call
sites): miss += 1, combo = 0, wrong += wrong_notes. -/
def Judge.update_stats_on_miss (j : Judge) (wrong_notes : ℕ) : Judge :=
  { j with stats :=
      { j.stats with miss := j.stats.miss + 1, combo := 0
                     wrong := j.stats.wrong + wrong_notes } }

/-- `Judge::update_stats_on_hit` (sans the event push): hit += 1,
combo += 1, wrong += wrong_notes, score += 100/70/0 by grade. -/
def Judge.update_stats_on_hit (j : Judge) (grade : Grade) (wrong_notes : ℕ) : Judge :=
  { j with stats :=
      { j.stats with
          hit := j.stats.hit + 1
          combo := j.stats.combo + 1
          wrong := j.stats.wrong + wrong_notes
          score := j.stats.score +
            match grade with
            | Grade.Perfect => 100
            | Grade.Good => 70
            | Grade.Miss => 0 } }

/-- `Judge::advance_focus` (sans the event push): `idx.saturating_add(1)`
and rebuild the focus state. -/
def Judge.advance_focus (j : Judge) : Judge :=
  let j1 := { j with idx := satAddUsize j.idx 1 }
  { j1 with state := j1.build_state }

/-- The `loop` of `Judge::advance_to`, fuel-bounded (each iteration
advances `idx`, so `targets.length + 1` fuel is always enough): while the
focused target exists and `now_tick > target.tick + good`, emit
`Miss{Timeout}`, update stats, emit the stats event, advance focus and
emit `FocusChanged`. -/
def Judge.advanceLoop : ℕ → Judge → ℤ → List JudgeEvent × Judge
  | 0, j, _ => ([], j)
  | fuel + 1, j, now =>
    match j.targets[j.idx]?, j.state with
    | some target, some st =>
      if now ≤ target.tick + j.cfg.window.good then ([], j)
      else
        let missing := st.expected.card - st.matched.length
        let e1 := JudgeEvent.Miss target.id MissReason.Timeout missing st.wrong_notes
        let j1 := j.update_stats_on_miss st.wrong_notes
        let e2 := j1.stats_event
        let j2 := j1.advance_focus
        let e3 := JudgeEvent.FocusChanged j2.current_focus
        let r := Judge.advanceLoop fuel j2 now
        (e1 :: e2 :: e3 :: r.1, r.2)
    | _, _ => ([], j)

/-- `Judge::advance_to`. -/
def Judge.advance_to (j : Judge) (now : ℤ) : List JudgeEvent × Judge :=
  Judge.advanceLoop (j.targets.length + 1) j now

/-- `Judge::load_targets`. -/
def Judge.load_targets (j : Judge) (ts : List TargetEvent) : List JudgeEvent × Judge :=
  let j1 := { j with targets := ts, idx := 0 }
  let j2 := { j1 with state := j1.build_state }
  ([JudgeEvent.FocusChanged j2.current_focus], j2)

/-- The in-window state update of `Judge::on_note_on` (lines inside
`if e.tick <= window_end`): record an expected, unmatched note when it is
within the chord roll of the first match; count unexpected notes as
wrong. -/
def noteOnUpdate (cfg : JudgeConfig) (st : TargetState) (e : PlayerNoteOn) :
    TargetState :=
  if e.note ∈ st.expected ∧ containsKey st.matched e.note = false then
    let within_roll :=
      match st.first_match_tick with
      | some first => decide (|e.tick - first| ≤ cfg.chord_roll)
      | none => true
    if within_roll then
      { st with
          matched := st.matched ++ [(e.note, e.tick)]
          first_match_tick :=
            match st.first_match_tick with
            | none => some e.tick
            | some f => some f }
    else st
  else if e.note ∉ st.expected then { st with wrong_notes := st.wrong_notes + 1 }
  else st

/-- `Judge::on_note_on`: flush timed-out targets, ignore too-early notes,
apply the in-window update, then resolve when every expected note is
matched (grade from `|delta| ≤ perfect`, optionally degraded by the
wrong-note policy), emitting Hit, Stats and FocusChanged. -/
def Judge.on_note_on (j0 : Judge) (e : PlayerNoteOn) : List JudgeEvent × Judge :=
  let r0 := j0.advance_to e.tick
  let events := r0.1
  let j := r0.2
  match j.targets[j.idx]? with
  | none => (events, j)
  | some target =>
    let good := j.cfg.window.good
    let perfect := j.cfg.window.perfect
    let window_start := target.tick - good
    let window_end := target.tick + good
    if e.tick < window_start then (events, j)
    else
      match j.state with
      | none => (events, j)
      | some st =>
        let st1 := if e.tick ≤ window_end then noteOnUpdate j.cfg st e else st
        if st1.matched.length = st1.expected.card ∧ st1.expected ≠ ∅ then
          let first_match := st1.first_match_tick.getD target.tick
          let delta := first_match - target.tick
          let grade0 := if |delta| ≤ perfect then Grade.Perfect else Grade.Good
          let grade :=
            if j.cfg.wrong_note_policy = WrongNotePolicy.DegradePerfect ∧
                0 < st1.wrong_notes ∧ grade0 = Grade.Perfect then
              Grade.Good
            else grade0
          let jhit := { j with state := some st1 }
          let j1 := jhit.update_stats_on_hit grade st1.wrong_notes
          let j2 := j1.advance_focus
          (events ++
            [JudgeEvent.Hit target.id grade delta st1.wrong_notes,
             j1.stats_event,
             JudgeEvent.FocusChanged j2.current_focus], j2)
        else (events, { j with state := some st1 })

/-! ### Application coordinator, input-mapping slice
(crates/cadenza-core/src/app.rs).  `Instant`s are modelled as rational
timestamps in seconds; `Instant::duration_since(...).as_secs_f64()` is the
(nonnegative) difference. -/

/-- `SessionState`. -/
inductive SessionState
  | Idle
  | Ready
  | Running
  | Paused
deriving DecidableEq, Repr

/-- The clock anchor `(at, sample_time)` used by `estimate_sample_time`. -/
structure ClockAnchor where
  at_s : ℚ
  sample_time : ℕ
deriving DecidableEq, Repr

/-- `PlayerEvent { at, event }`. -/
structure PlayerEvent where
  at_s : ℚ
  event : MidiLikeEvent
deriving DecidableEq, Repr

/-- The slice of `PracticeApp` state read by `map_player_event` and
`route_player_event`'s monitor push. -/
structure AppCut where
  transport : Transport
  session_state : SessionState
  input_offset_ms : ℤ
  monitor_enabled : Bool
  clock_anchor : Option ClockAnchor
  audio_clock : ℕ
deriving DecidableEq, Repr

/-- `PracticeApp::estimate_sample_time`: without an anchor fall back to the
audio clock; otherwise offset the anchor's sample time by the elapsed
wall-clock time scaled by the sample rate (clamped at 1 Hz), saturating in
both directions. -/
def AppCut.estimate_sample_time (a : AppCut) (at_s : ℚ) : ℕ :=
  match a.clock_anchor with
  | none => a.audio_clock
  | some anchor =>
    let sr : ℚ := (max a.transport.sample_rate_hz 1 : ℕ)
    if anchor.at_s ≤ at_s then
      satAddU64 anchor.sample_time (castU64 (rustRound ((at_s - anchor.at_s) * sr)))
    else
      satSubU64 anchor.sample_time (castU64 (rustRound ((anchor.at_s - at_s) * sr)))

/-- `PracticeApp::map_player_event`: returns `(judge tick, sample_time)`.
The input offset shifts only the judge tick; the sample time is the
estimated physical time. -/
def AppCut.map_player_event (a : AppCut) (ev : PlayerEvent) : ℤ × ℕ :=
  let sample_time := a.estimate_sample_time ev.at_s
  let offset_ticks := a.transport.ms_to_ticks a.input_offset_ms
  let tick :=
    if a.session_state = SessionState.Running then
      satAddI64 (a.transport.sample_to_tick sample_time) offset_ticks
    else
      satAddI64 a.transport.now_tick offset_ticks
  (tick, sample_time)

/-- The monitor push of `PracticeApp::route_player_event`: when monitoring
is enabled, the event goes to the audio queue on `Bus::UserMonitor` at the
mapped `sample_time`. -/
def AppCut.monitor_event (a : AppCut) (ev : PlayerEvent) : Option ScheduledEvent :=
  if a.monitor_enabled then
    some (ScheduledEvent.mk (a.map_player_event ev).2 Bus.UserMonitor ev.event)
  else none

/-! ### Helper lemmas -/

theorem rustRound_intCast (z : ℤ) : rustRound (z : ℚ) = z := by
  unfold rustRound
  split
  · rw [show ((z : ℚ) + 1 / 2) = (1 / 2 + z) by ring, Int.floor_add_int]
    norm_num
  · rw [show (-(z : ℚ) + 1 / 2) = (1 / 2 + ((-z : ℤ) : ℚ)) by push_cast; ring,
      Int.floor_add_int]
    norm_num

theorem rustRound_nonneg_divNat (n : ℤ) (d : ℕ) (hd : 0 < d) (hn : 0 ≤ n) :
    rustRound ((n : ℚ) / (d : ℚ)) = (2 * n + d) / (2 * (d : ℤ)) := by
  have hdq : (0 : ℚ) < (d : ℚ) := by exact_mod_cast hd
  have hnn : (0 : ℚ) ≤ (n : ℚ) / (d : ℚ) := by positivity
  unfold rustRound
  rw [if_pos hnn]
  have h2 : ((n : ℚ) / (d : ℚ) + 1 / 2) =
      (((2 * n + d : ℤ) : ℚ) / ((2 * d : ℕ) : ℚ)) := by
    push_cast
    field_simp
    ring
  rw [h2, Rat.floor_intCast_div_natCast]
  push_cast
  ring_nf

theorem zipWith_addmul_zero (n : ℕ) (v : ℚ) :
    (List.replicate n (0 : ℚ)).zipWith (fun o s => o + s * v)
      (List.replicate n (0 : ℚ)) = List.replicate n (0 : ℚ) := by
  induction n with
  | zero => rfl
  | succ k ih => simp [List.replicate_succ, ih]

/-! ### Claim C8 -/

/-- C8: two-run noninterference over `input_offset_ms`.  Changing the
offset leaves the estimated `sample_time` and the monitor-routed
`ScheduledEvent` (pushed to `Bus::UserMonitor` with no offset applied)
unchanged, and shifts only the judge tick, by `ms_to_ticks(offset)`
(saturating `i64` addition) on top of the offset-independent base tick. -/
theorem c8_input_offset_noninterference (a : AppCut) (o : ℤ) (ev : PlayerEvent) :
    (({ a with input_offset_ms := o } : AppCut).map_player_event ev).2 =
      (a.map_player_event ev).2 ∧
    ({ a with input_offset_ms := o } : AppCut).monitor_event ev =
      a.monitor_event ev ∧
    (({ a with input_offset_ms := o } : AppCut).map_player_event ev).1 =
      satAddI64
        (if a.session_state = SessionState.Running then
          a.transport.sample_to_tick (a.estimate_sample_time ev.at_s)
        else a.transport.now_tick)
        (a.transport.ms_to_ticks o) ∧
    (a.map_player_event ev).1 =
      satAddI64
        (if a.session_state = SessionState.Running then
          a.transport.sample_to_tick (a.estimate_sample_time ev.at_s)
        else a.transport.now_tick)
        (a.transport.ms_to_ticks a.input_offset_ms) := by
  refine ⟨rfl, rfl, ?_, ?_⟩ <;>
    by_cases h : a.session_state = SessionState.Running <;>
      simp [AppCut.map_player_event, AppCut.estimate_sample_time, h]

/-! ### Claim C10 -/

/-- C10: with `monitor_enabled == false`, `render_segment` never invokes
`synth.render` for `Bus::UserMonitor` (the synth-call list is exactly
`[Autopilot, MetronomeFx]`, so Autopilot and MetronomeFx are always
rendered), and the UserMonitor bus contributes zero to the output: the
entire result is independent of what the monitor bus would synthesize.
`AudioParams::bus` returns 0 for the two score-driven buses whenever
`playback_enabled` is false, so monitor disable gates synthesis of the
monitor bus while playback disable merely zeroes the others' volume. -/
theorem c10_monitor_disable_gates_synthesis (p : AudioParams)
    (synthL synthR synthL' synthR' : Bus → List ℚ) (frames : ℕ) (g : ℚ)
    (hL : ∀ b, b ≠ Bus.UserMonitor → synthL' b = synthL b)
    (hR : ∀ b, b ≠ Bus.UserMonitor → synthR' b = synthR b) :
    (render_segment { p with monitor_enabled := false } synthL synthR frames g).calls =
      [Bus.Autopilot, Bus.MetronomeFx] ∧
    Bus.UserMonitor ∉
      (render_segment { p with monitor_enabled := false } synthL synthR frames g).calls ∧
    render_segment { p with monitor_enabled := false } synthL synthR frames g =
      render_segment { p with monitor_enabled := false } synthL' synthR' frames g ∧
    ({ p with playback_enabled := false } : AudioParams).bus Bus.Autopilot = 0 ∧
    ({ p with playback_enabled := false } : AudioParams).bus Bus.MetronomeFx = 0 := by
  have hLA := hL Bus.Autopilot (by simp)
  have hLM := hL Bus.MetronomeFx (by simp)
  have hRA := hR Bus.Autopilot (by simp)
  have hRM := hR Bus.MetronomeFx (by simp)
  have hcalls : ∀ (q : AudioParams) (sL sR : Bus → List ℚ),
      (render_segment q sL sR frames g).calls =
        ([Bus.UserMonitor, Bus.Autopilot, Bus.MetronomeFx].foldl (mixBus q sL sR)
          ([], List.replicate frames 0, List.replicate frames 0)).1 := by
    intro q sL sR
    simp only [render_segment]
  refine ⟨?_, ?_, ?_, ?_, ?_⟩
  · rw [hcalls]
    simp +decide only [List.foldl, mixBus]
    simp
  · rw [hcalls]
    simp +decide only [List.foldl, mixBus]
    simp
  · simp only [render_segment, mixBus, List.foldl]
    simp +decide [hLA, hLM, hRA, hRM]
  · simp [AudioParams.bus]
  · simp [AudioParams.bus]


/-! ### Constant-map evaluation helpers -/

theorem segment_for_tick_single (P : ℕ) (seg : TempoSegment) (tick : ℤ)
    (h : seg.start_tick ≤ tick) :
    (TempoMap.mk P [seg]).segment_for_tick tick = seg := by
  simp [TempoMap.segment_for_tick, List.takeWhile, h]

theorem segment_for_micros_single (P : ℕ) (seg : TempoSegment) (micros : ℤ)
    (h : seg.start_us ≤ micros) :
    (TempoMap.mk P [seg]).segment_for_micros micros = seg := by
  simp [TempoMap.segment_for_micros, List.takeWhile, h]

theorem tick_to_micros_single (P U : ℕ) (t : ℤ) (h : 0 ≤ t) :
    (TempoMap.mk P [⟨0, 0, U⟩]).tick_to_micros t = Int.tdiv (t * U) P := by
  rw [TempoMap.tick_to_micros, segment_for_tick_single P _ t h]
  simp [ticks_to_us]

theorem micros_to_tick_single (P U : ℕ) (m : ℤ) (h : 0 ≤ m) :
    (TempoMap.mk P [⟨0, 0, U⟩]).micros_to_tick m = Int.tdiv (m * P) U := by
  rw [TempoMap.micros_to_tick, segment_for_micros_single P _ m h]
  simp [us_to_ticks]

theorem transport_new_default :
    Transport.new 480 48000 [⟨0, 500000⟩] =
      { state := TransportState.Stopped, ppq := 480, sample_rate_hz := 48000
        origin_sample := 0, tempo_map := ⟨480, [⟨0, 0, 500000⟩]⟩
        tempo_multiplier := 1, position_tick := 0, position_sample := 0
        loop_range := none } := by
  simp only [Transport.new, TempoMap.new, List.insertionSort, List.orderedInsert,
    accumSegments]

theorem micros_to_samples_500000 : micros_to_samples 500000 48000 = 24000 := by
  rw [micros_to_samples, if_neg (by norm_num)]
  norm_num [rustRound, castU64, u64Max]
  decide

theorem micros_to_samples_1000000 : micros_to_samples 1000000 48000 = 48000 := by
  rw [micros_to_samples, if_neg (by norm_num)]
  norm_num [rustRound, castU64, u64Max]
  decide

theorem micros_to_samples_250000 : micros_to_samples 250000 48000 = 12000 := by
  rw [micros_to_samples, if_neg (by norm_num)]
  norm_num [rustRound, castU64, u64Max]
  decide

theorem transport_seek480 :
    (Transport.new 480 48000 [⟨0, 500000⟩]).seek 480 =
      { state := TransportState.Stopped, ppq := 480, sample_rate_hz := 48000
        origin_sample := 0, tempo_map := ⟨480, [⟨0, 0, 500000⟩]⟩
        tempo_multiplier := 1, position_tick := 480, position_sample := 24000
        loop_range := none } := by
  rw [transport_new_default, Transport.seek]
  simp only [Transport.tick_to_sample, Transport.tick_to_micros_scaled,
    tick_to_micros_single 480 500000 480 (by norm_num), Nat.cast_ofNat]
  rw [show (Int.tdiv ((480 : ℤ) * 500000) 480 : ℤ) = 500000 from by decide]
  rw [show ((500000 : ℤ) : ℚ) / 1 = ((500000 : ℤ) : ℚ) from by norm_num]
  rw [rustRound_intCast]
  rw [show castI64 500000 = 500000 from by decide]
  rw [micros_to_samples_500000]
  rfl

/-! ### Claim C6 -/

/-- C6 counterexample: the claimed identity
`tick_to_sample(position_tick) == position_sample` after
`set_tempo_multiplier` fails when the recomputed origin saturates at zero.
Seek the default transport (ppq 480, 48 kHz, 500000 us/quarter) to tick
480, so `position_sample = 24000`; then halve the tempo multiplier: the
new relative offset of tick 480 is 48000 samples, `origin_sample`
saturates to 0, and `tick_to_sample(480) = 48000 ≠ 24000` even though
`position_sample` is still 24000. -/
theorem c6_counterexample :
    (((Transport.new 480 48000 [⟨0, 500000⟩]).seek 480).set_tempo_multiplier
        (1 / 2)).position_sample = 24000 ∧
    (((Transport.new 480 48000 [⟨0, 500000⟩]).seek 480).set_tempo_multiplier
        (1 / 2)).position_tick = 480 ∧
    (((Transport.new 480 48000 [⟨0, 500000⟩]).seek 480).set_tempo_multiplier
        (1 / 2)).tick_to_sample
      (((Transport.new 480 48000 [⟨0, 500000⟩]).seek 480).set_tempo_multiplier
        (1 / 2)).position_tick = 48000 := by
  rw [transport_seek480, Transport.set_tempo_multiplier, Transport.recalculate_origin]
  simp only [Transport.tick_to_sample_relative, Transport.tick_to_sample,
    Transport.tick_to_micros_scaled,
    tick_to_micros_single 480 500000 480 (by norm_num), Nat.cast_ofNat]
  rw [show (Int.tdiv ((480 : ℤ) * 500000) 480 : ℤ) = 500000 from by decide]
  rw [show max (1 / 2 : ℚ) (1 / 10) = 1 / 2 from by norm_num]
  rw [show ((500000 : ℤ) : ℚ) / (1 / 2) = ((1000000 : ℤ) : ℚ) from by norm_num]
  rw [rustRound_intCast]
  rw [show castI64 1000000 = 1000000 from by decide]
  rw [micros_to_samples_1000000]
  refine ⟨trivial, trivial, ?_⟩
  simp only [satSubU64, satAddU64, u64Max]
  norm_num

/-- C6 (amended): `set_tempo_multiplier` and `set_sample_rate` always
preserve `position_sample`, and the recomputed origin makes
`tick_to_sample(position_tick)` equal `position_sample` provided the new
relative offset of `position_tick` does not exceed `position_sample`
(i.e. the `origin_sample = position_sample - relative` computation does
not saturate at zero; the counterexample shows the identity fails when it
does) and `position_sample` is a `u64` value. -/
theorem c6_amended_origin_recomputed (t : Transport) (m : ℚ) (hz : ℕ) :
    (t.set_tempo_multiplier m).position_sample = t.position_sample ∧
    (t.set_sample_rate hz).position_sample = t.position_sample ∧
    ((t.set_tempo_multiplier m).tick_to_sample_relative t.position_tick ≤
        t.position_sample →
      t.position_sample ≤ u64Max →
      (t.set_tempo_multiplier m).tick_to_sample t.position_tick =
        t.position_sample) ∧
    ((t.set_sample_rate hz).tick_to_sample_relative t.position_tick ≤
        t.position_sample →
      t.position_sample ≤ u64Max →
      (t.set_sample_rate hz).tick_to_sample t.position_tick =
        t.position_sample) := by
  refine ⟨rfl, rfl, ?_, ?_⟩
  · intro h1 h2
    have horigin : (t.set_tempo_multiplier m).origin_sample =
        satSubU64 t.position_sample
          ((t.set_tempo_multiplier m).tick_to_sample_relative t.position_tick) := rfl
    have hts : (t.set_tempo_multiplier m).tick_to_sample t.position_tick =
        satAddU64 (t.set_tempo_multiplier m).origin_sample
          ((t.set_tempo_multiplier m).tick_to_sample_relative t.position_tick) := rfl
    rw [hts, horigin]
    simp only [satAddU64, satSubU64] at h1 h2 ⊢
    omega
  · intro h1 h2
    have horigin : (t.set_sample_rate hz).origin_sample =
        satSubU64 t.position_sample
          ((t.set_sample_rate hz).tick_to_sample_relative t.position_tick) := rfl
    have hts : (t.set_sample_rate hz).tick_to_sample t.position_tick =
        satAddU64 (t.set_sample_rate hz).origin_sample
          ((t.set_sample_rate hz).tick_to_sample_relative t.position_tick) := rfl
    rw [hts, horigin]
    simp only [satAddU64, satSubU64] at h1 h2 ⊢
    omega

/-- C6 witness: the amended theorem applied to the seeked default
transport with the multiplier doubled (new relative offset 12000 ≤ 24000,
no saturation): `position_sample` is preserved and
`tick_to_sample(position_tick)` recovers it. -/
theorem c6_amended_origin_recomputed_witness :
    ((((Transport.new 480 48000 [⟨0, 500000⟩]).seek 480).set_tempo_multiplier
        2).position_sample =
      ((Transport.new 480 48000 [⟨0, 500000⟩]).seek 480).position_sample) ∧
    ((((Transport.new 480 48000 [⟨0, 500000⟩]).seek 480).set_tempo_multiplier
        2).tick_to_sample
          ((Transport.new 480 48000 [⟨0, 500000⟩]).seek 480).position_tick =
      ((Transport.new 480 48000 [⟨0, 500000⟩]).seek 480).position_sample) := by
  have h1 : (((Transport.new 480 48000 [⟨0, 500000⟩]).seek 480).set_tempo_multiplier
      2).tick_to_sample_relative
        ((Transport.new 480 48000 [⟨0, 500000⟩]).seek 480).position_tick ≤
      ((Transport.new 480 48000 [⟨0, 500000⟩]).seek 480).position_sample := by
    rw [transport_seek480, Transport.set_tempo_multiplier, Transport.recalculate_origin]
    simp only [Transport.tick_to_sample_relative, Transport.tick_to_micros_scaled,
      tick_to_micros_single 480 500000 480 (by norm_num), Nat.cast_ofNat]
    rw [show (Int.tdiv ((480 : ℤ) * 500000) 480 : ℤ) = 500000 from by decide]
    rw [show max (2 : ℚ) (1 / 10) = 2 from by norm_num]
    rw [show ((500000 : ℤ) : ℚ) / 2 = ((250000 : ℤ) : ℚ) from by norm_num]
    rw [rustRound_intCast]
    rw [show castI64 250000 = 250000 from by decide]
    rw [micros_to_samples_250000]
    norm_num
  have h2 : ((Transport.new 480 48000 [⟨0, 500000⟩]).seek 480).position_sample ≤
      u64Max := by
    rw [transport_seek480]
    norm_num [u64Max]
  exact ⟨(c6_amended_origin_recomputed
      ((Transport.new 480 48000 [⟨0, 500000⟩]).seek 480) 2 48000).1,
    (c6_amended_origin_recomputed
      ((Transport.new 480 48000 [⟨0, 500000⟩]).seek 480) 2 48000).2.2.1 h1 h2⟩

/-! ### Claim C2 -/

/-- C2 counterexample: the round trip is not within ±1 tick for every
constant tempo map.  With ppq 2, 1 us/quarter and 48 kHz (a valid
single-segment map whose ticks are far shorter than one sample), tick 3
maps to sample 0 and back to tick 0, an error of 3 ticks. -/
theorem c2_counterexample :
    (Transport.new 2 48000 [⟨0, 1⟩]).tempo_multiplier = 1 ∧
    (Transport.new 2 48000 [⟨0, 1⟩]).tempo_map.segments.length = 1 ∧
    (Transport.new 2 48000 [⟨0, 1⟩]).sample_to_tick
      ((Transport.new 2 48000 [⟨0, 1⟩]).tick_to_sample 3) = 0 ∧
    ¬ (|(Transport.new 2 48000 [⟨0, 1⟩]).sample_to_tick
        ((Transport.new 2 48000 [⟨0, 1⟩]).tick_to_sample 3) - 3| ≤ 1) := by
  have h0 : Transport.new 2 48000 [⟨0, 1⟩] =
      Transport.mk TransportState.Stopped 2 48000 0 ⟨2, [⟨0, 0, 1⟩]⟩ 1 0 0 none := by
    simp only [Transport.new, TempoMap.new, List.insertionSort, List.orderedInsert,
      accumSegments]
  rw [h0]
  have hts : (Transport.mk TransportState.Stopped 2 48000 0 ⟨2, [⟨0, 0, 1⟩]⟩
      1 0 0 none).tick_to_sample 3 = 0 := by
    simp only [Transport.tick_to_sample, Transport.tick_to_micros_scaled,
      tick_to_micros_single 2 1 3 (by norm_num), Nat.cast_ofNat, Nat.cast_one]
    rw [show (Int.tdiv ((3 : ℤ) * 1) 2 : ℤ) = 1 from by decide]
    rw [show ((1 : ℤ) : ℚ) / 1 = ((1 : ℤ) : ℚ) from by norm_num]
    rw [rustRound_intCast]
    rw [show castI64 1 = 1 from by decide]
    rw [micros_to_samples, if_neg (by norm_num)]
    norm_num [rustRound, castU64, u64Max, satAddU64]
  rw [hts]
  have hst : (Transport.mk TransportState.Stopped 2 48000 0 ⟨2, [⟨0, 0, 1⟩]⟩
      1 0 0 none).sample_to_tick 0 = 0 := by
    simp only [Transport.sample_to_tick, samples_to_micros, satSubU64]
    norm_num [rustRound, castI64, i64Max, i64Min]
    rw [micros_to_tick_single 2 1 0 (by norm_num)]
    decide
  rw [hst]
  norm_num

/-- C2 (amended): the ±1-tick round trip does hold for constant tempo maps
whose ticks are no finer than the sample-plus-microsecond rounding
granularity; in particular for the default configuration (ppq 480,
500000 us/quarter, 48 kHz, origin 0, tempo_multiplier 1):
`sample_to_tick(tick_to_sample(t)) = t ± 1` for all `0 ≤ t ≤ 2^31`.  (The
counterexample shows the bound fails for maps with sub-sample ticks.) -/
theorem c2_amended_roundtrip (t : ℤ) (ht0 : 0 ≤ t) (ht1 : t ≤ 2 ^ 31) :
    |(Transport.new 480 48000 [⟨0, 500000⟩]).sample_to_tick
      ((Transport.new 480 48000 [⟨0, 500000⟩]).tick_to_sample t) - t| ≤ 1 := by
  rw [transport_new_default]
  simp only [Transport.tick_to_sample, Transport.tick_to_micros_scaled,
    tick_to_micros_single 480 500000 t ht0, Nat.cast_ofNat]
  rw [Int.div_eq_ediv (by positivity) (by norm_num)]
  set m : ℤ := (t * 500000) / 480 with hm
  have hm0 : 0 ≤ m := Int.ediv_nonneg (by positivity) (by norm_num)
  rw [div_one, rustRound_intCast]
  have hci : castI64 m = m := by
    simp only [castI64, i64Max, i64Min]
    omega
  rw [hci]
  have hmts : micros_to_samples m 48000 =
      ((2 * (m * 48000) + (1000000 : ℕ)) / (2 * ((1000000 : ℕ) : ℤ))).toNat := by
    rw [micros_to_samples]
    by_cases hm1 : m ≤ 0
    · rw [if_pos hm1]
      have hz : m = 0 := le_antisymm hm1 hm0
      rw [hz]
      decide
    · rw [if_neg hm1]
      have hq : ((m : ℚ) * ((48000 : ℕ) : ℚ) / 1000000) =
          (((m * 48000 : ℤ) : ℚ) / ((1000000 : ℕ) : ℚ)) := by
        push_cast
        ring
      rw [hq, rustRound_nonneg_divNat _ _ (by norm_num) (by positivity)]
      simp only [castU64, u64Max]
      omega
  rw [hmts]
  set z : ℤ := (2 * (m * 48000) + (1000000 : ℕ)) / (2 * ((1000000 : ℕ) : ℤ)) with hz
  have hz0 : 0 ≤ z := by omega
  have hsat : satAddU64 0 z.toNat = z.toNat := by
    simp only [satAddU64, u64Max]
    omega
  rw [hsat]
  simp only [Transport.sample_to_tick, samples_to_micros, satSubU64, Nat.sub_zero]
  have hq2 : ((z.toNat : ℚ) * 1000000 / ((48000 : ℕ) : ℚ)) =
      (((z * 1000000 : ℤ) : ℚ) / ((48000 : ℕ) : ℚ)) := by
    rw [show ((z.toNat : ℕ) : ℚ) = ((z : ℤ) : ℚ) from by
      rw [show ((z.toNat : ℕ) : ℚ) = (((z.toNat : ℕ) : ℤ) : ℚ) from by push_cast; ring,
        Int.toNat_of_nonneg hz0]]
    push_cast
    ring
  rw [hq2, rustRound_nonneg_divNat _ _ (by norm_num) (by positivity)]
  set w : ℤ := (2 * (z * 1000000) + (48000 : ℕ)) / (2 * ((48000 : ℕ) : ℤ)) with hw
  have hw0 : 0 ≤ w := by omega
  have hciw : castI64 w = w := by
    simp only [castI64, i64Max, i64Min]
    omega
  rw [hciw, mul_one, rustRound_intCast, hciw,
    micros_to_tick_single 480 500000 w hw0, Nat.cast_ofNat,
    Int.div_eq_ediv (by positivity) (by norm_num)]
  rw [abs_le]
  constructor <;> omega

/-- C2 witness: the amended round trip at tick 960 (two quarters into the
default map). -/
theorem c2_amended_roundtrip_witness :
    (0 : ℤ) ≤ 960 ∧ (960 : ℤ) ≤ 2 ^ 31 ∧
    |(Transport.new 480 48000 [⟨0, 500000⟩]).sample_to_tick
      ((Transport.new 480 48000 [⟨0, 500000⟩]).tick_to_sample 960) - 960| ≤ 1 :=
  ⟨by norm_num, by norm_num, c2_amended_roundtrip 960 (by norm_num) (by norm_num)⟩

/-! ### Claim C3 -/

/-- Whether a judge event is a Miss. -/
def isMissEv : JudgeEvent → Bool
  | JudgeEvent.Miss _ _ _ _ => true
  | _ => false

/-- Modelled from the spec's words ("while focus exists and
`now_tick > T.tick + good`, emit `Miss{target_id, reason=Timeout,
missing_notes=|expected|-|matched|, wrong_notes}`, update stats (miss++,
combo=0), advance focus; Stats and FocusChanged follow each Miss"; no Miss
when `now_tick ≤ T.tick + good`): the exact event list `advance_to` must
produce, built directly from the focused-target run. -/
def cascadeEvents (cfg : JudgeConfig) (targets : List TargetEvent) :
    ℕ → StatsState → ℕ → Option TargetState → ℤ → List JudgeEvent
  | 0, _, _, _, _ => []
  | fuel + 1, stats, idx, some st, now =>
    match targets[idx]? with
    | some t =>
      if now ≤ t.tick + cfg.window.good then []
      else
        JudgeEvent.Miss t.id MissReason.Timeout
            (st.expected.card - st.matched.length) st.wrong_notes ::
        JudgeEvent.Stats 0 stats.score stats.hit (stats.miss + 1)
            (stats.wrong + st.wrong_notes) ::
        JudgeEvent.FocusChanged
            ((targets[satAddUsize idx 1]?).map TargetEvent.id) ::
        cascadeEvents cfg targets fuel
          ⟨0, stats.score, stats.hit, stats.miss + 1, stats.wrong + st.wrong_notes⟩
          (satAddUsize idx 1)
          ((targets[satAddUsize idx 1]?).map freshState) now
    | none => []
  | _ + 1, _, _, none, _ => []

theorem advanceLoop_spec (fuel : ℕ) (j : Judge) (now : ℤ) :
    (Judge.advanceLoop fuel j now).1 =
      cascadeEvents j.cfg j.targets fuel j.stats j.idx j.state now ∧
    (Judge.advanceLoop fuel j now).2.stats.miss =
      j.stats.miss + (Judge.advanceLoop fuel j now).1.countP (fun e => isMissEv e) ∧
    ((Judge.advanceLoop fuel j now).1 = [] → (Judge.advanceLoop fuel j now).2 = j) ∧
    ((Judge.advanceLoop fuel j now).1 ≠ [] →
      (Judge.advanceLoop fuel j now).2.stats.combo = 0) := by
  induction fuel generalizing j with
  | zero => simp [Judge.advanceLoop, cascadeEvents]
  | succ n ih =>
    rcases hT : j.targets[j.idx]? with _ | t
    · rcases hS : j.state with _ | st <;>
        simp [Judge.advanceLoop, cascadeEvents, hT, hS]
    · rcases hS : j.state with _ | st
      · simp [Judge.advanceLoop, cascadeEvents, hT, hS]
      · by_cases hle : now ≤ t.tick + j.cfg.window.good
        · simp [Judge.advanceLoop, cascadeEvents, hT, hS, hle]
        · have hrec := ih (((j.update_stats_on_miss st.wrong_notes)).advance_focus)
          simp only [Judge.advanceLoop, cascadeEvents, hT, hS, if_neg hle,
            Judge.update_stats_on_miss, Judge.advance_focus, Judge.build_state,
            Judge.stats_event, Judge.current_focus] at hrec ⊢
          refine ⟨?_, ?_, ?_, ?_⟩
          · rw [hrec.1]
          · rw [hrec.2.1]
            simp [isMissEv, Nat.add_assoc, Nat.add_comm]
          · intro hfalse
            simp at hfalse
          · intro hne
            rcases hcase : (Judge.advanceLoop n
                ((j.update_stats_on_miss st.wrong_notes).advance_focus) now).1 with _ | more
            · have := hrec.2.2.1 (by
                simpa only [Judge.update_stats_on_miss, Judge.advance_focus,
                  Judge.build_state] using hcase)
              rw [this]
            · have := hrec.2.2.2 (by
                simp only [Judge.update_stats_on_miss, Judge.advance_focus,
                  Judge.build_state] at hcase ⊢
                rw [hcase]
                simp)
              exact this

/-- C3: `advance_to(now_tick)` emits exactly the Miss cascade: one
`Miss{Timeout, missing_notes = |expected| - |matched|}` for each target
that becomes focused in turn with `now_tick > tick + good`, each followed
by a Stats event (with combo 0) and a FocusChanged event, and nothing
else (`(advance_to).1 = cascadeEvents ...`); the miss counter increases by
exactly the number of Miss events; a focused target with
`now_tick ≤ tick + good` produces no events and leaves the judge
unchanged; and whenever any Miss was emitted the combo ends at 0. -/
theorem c3_advance_to_miss_cascade (j : Judge) (now : ℤ) :
    (j.advance_to now).1 =
      cascadeEvents j.cfg j.targets (j.targets.length + 1) j.stats j.idx j.state now ∧
    (j.advance_to now).2.stats.miss =
      j.stats.miss + (j.advance_to now).1.countP (fun e => isMissEv e) ∧
    (∀ t st, j.targets[j.idx]? = some t → j.state = some st →
      now ≤ t.tick + j.cfg.window.good →
      (j.advance_to now).1 = [] ∧ (j.advance_to now).2 = j) ∧
    ((j.advance_to now).1 ≠ [] → (j.advance_to now).2.stats.combo = 0) := by
  have h := advanceLoop_spec (j.targets.length + 1) j now
  refine ⟨h.1, h.2.1, ?_, h.2.2.2⟩
  intro t st hT hS hle
  have hempty : (j.advance_to now).1 = [] := by
    have h1 : (j.advance_to now).1 =
        cascadeEvents j.cfg j.targets (j.targets.length + 1) j.stats j.idx j.state
          now := h.1
    rw [h1, hS]
    simp [cascadeEvents, hT, hle]
  exact ⟨hempty, h.2.2.1 hempty⟩

/-- C3 witness: scenario E4 — a single target `{id 1, tick 100, notes
[60]}` with good window 6; `advance_to(200)` emits exactly
`Miss{1, Timeout, missing 1}`, `Stats{combo 0, miss 1}`,
`FocusChanged(none)`, while `advance_to(50)` emits nothing and leaves the
judge unchanged. -/
theorem c3_advance_to_miss_cascade_witness :
    ((((Judge.new ⟨⟨2, 6⟩, 3, WrongNotePolicy.RecordOnly,
          AdvanceMode.OnResolve⟩).load_targets
        [⟨1, 100, [60], none, none⟩]).2.advance_to 200).1 =
      [JudgeEvent.Miss 1 MissReason.Timeout 1 0,
       JudgeEvent.Stats 0 0 0 1 0,
       JudgeEvent.FocusChanged none]) ∧
    ((((Judge.new ⟨⟨2, 6⟩, 3, WrongNotePolicy.RecordOnly,
          AdvanceMode.OnResolve⟩).load_targets
        [⟨1, 100, [60], none, none⟩]).2.advance_to 50).1 = []) :=
  ⟨((c3_advance_to_miss_cascade
      ((Judge.new ⟨⟨2, 6⟩, 3, WrongNotePolicy.RecordOnly,
          AdvanceMode.OnResolve⟩).load_targets
        [⟨1, 100, [60], none, none⟩]).2 200).1).trans (by decide),
    ((c3_advance_to_miss_cascade
      ((Judge.new ⟨⟨2, 6⟩, 3, WrongNotePolicy.RecordOnly,
          AdvanceMode.OnResolve⟩).load_targets
        [⟨1, 100, [60], none, none⟩]).2 50).2.2.1
      ⟨1, 100, [60], none, none⟩
      (freshState ⟨1, 100, [60], none, none⟩)
      (by decide) (by decide) (by decide)).1⟩

/-! ### Claim C4 -/

theorem advance_to_no_timeout (j : Judge) (now : ℤ) (t : TargetEvent)
    (st : TargetState) (hT : j.targets[j.idx]? = some t) (hS : j.state = some st)
    (hle : now ≤ t.tick + j.cfg.window.good) :
    j.advance_to now = ([], j) := by
  rw [Judge.advance_to]
  simp [Judge.advanceLoop, hT, hS, hle]

/-- C4 (amended): inside the good window, an expected, not-yet-matched
note is recorded iff `first_match_tick` is `None` or
`|player.tick - first_match_tick| ≤ chord_roll`; after a recorded match,
`first_match_tick` equals the tick of the FIRST recorded match (it is kept
once set — not the minimum of the matched ticks, as the counterexample
shows); and every Hit emitted by `on_note_on` carries
`delta_tick = first_match_tick - target.tick` (with the post-update
state's `first_match_tick`), a Hit being emitted exactly when all expected
notes are matched and the expected set is nonempty. -/
theorem c4_amended_first_match_recording (j : Judge) (e : PlayerNoteOn)
    (T : TargetEvent) (st : TargetState)
    (hT : j.targets[j.idx]? = some T) (hS : j.state = some st)
    (h1 : T.tick - j.cfg.window.good ≤ e.tick)
    (h2 : e.tick ≤ T.tick + j.cfg.window.good) :
    (e.note ∈ st.expected → containsKey st.matched e.note = false →
      (∀ f, st.first_match_tick = some f → |e.tick - f| ≤ j.cfg.chord_roll →
        (noteOnUpdate j.cfg st e).matched = st.matched ++ [(e.note, e.tick)] ∧
        (noteOnUpdate j.cfg st e).first_match_tick = some f) ∧
      (st.first_match_tick = none →
        (noteOnUpdate j.cfg st e).matched = st.matched ++ [(e.note, e.tick)] ∧
        (noteOnUpdate j.cfg st e).first_match_tick = some e.tick) ∧
      (∀ f, st.first_match_tick = some f → ¬ (|e.tick - f| ≤ j.cfg.chord_roll) →
        noteOnUpdate j.cfg st e = st)) ∧
    (∀ id g d w, JudgeEvent.Hit id g d w ∈ (j.on_note_on e).1 →
      id = T.id ∧
      d = (noteOnUpdate j.cfg st e).first_match_tick.getD T.tick - T.tick ∧
      w = (noteOnUpdate j.cfg st e).wrong_notes) ∧
    ((noteOnUpdate j.cfg st e).matched.length =
        (noteOnUpdate j.cfg st e).expected.card ∧
        (noteOnUpdate j.cfg st e).expected ≠ ∅ →
      ∃ g, (j.on_note_on e).1 =
        [JudgeEvent.Hit T.id g
            ((noteOnUpdate j.cfg st e).first_match_tick.getD T.tick - T.tick)
            (noteOnUpdate j.cfg st e).wrong_notes,
         ({ j with state := some (noteOnUpdate j.cfg st e)
          }.update_stats_on_hit g (noteOnUpdate j.cfg st e).wrong_notes).stats_event,
         JudgeEvent.FocusChanged (j.targets[satAddUsize j.idx 1]?.map TargetEvent.id)]) ∧
    (¬ ((noteOnUpdate j.cfg st e).matched.length =
          (noteOnUpdate j.cfg st e).expected.card ∧
          (noteOnUpdate j.cfg st e).expected ≠ ∅) →
      j.on_note_on e = ([], { j with state := some (noteOnUpdate j.cfg st e) })) := by
  have hadv := advance_to_no_timeout j e.tick T st hT hS h2
  have hwin : ¬ (e.tick < T.tick - j.cfg.window.good) := by omega
  refine ⟨?_, ?_, ?_, ?_⟩
  · intro hexp hnk
    refine ⟨?_, ?_, ?_⟩
    · intro f hf hroll
      rw [noteOnUpdate, if_pos ⟨hexp, hnk⟩]
      simp [hf, hroll]
    · intro hf
      rw [noteOnUpdate, if_pos ⟨hexp, hnk⟩]
      simp [hf]
    · intro f hf hroll
      rw [noteOnUpdate, if_pos ⟨hexp, hnk⟩]
      simp [hf, hroll]
  · intro id g d w hmem
    rw [Judge.on_note_on] at hmem
    simp only [hadv, hT, hS, if_neg hwin, if_pos h2] at hmem
    by_cases hres : (noteOnUpdate j.cfg st e).matched.length =
        (noteOnUpdate j.cfg st e).expected.card ∧
        (noteOnUpdate j.cfg st e).expected ≠ ∅
    · simp only [if_pos hres] at hmem
      simp [Judge.stats_event, Judge.update_stats_on_hit] at hmem
      obtain ⟨hid, hg, hd, hw⟩ := hmem
      exact ⟨hid, hd, hw⟩
    · simp only [if_neg hres] at hmem
      simp at hmem
  · intro hres
    rw [Judge.on_note_on]
    simp only [hadv, hT, hS, if_neg hwin, if_pos h2, if_pos hres]
    exact ⟨_, rfl⟩
  · intro hres
    rw [Judge.on_note_on]
    simp only [hadv, hT, hS, if_neg hwin, if_pos h2, if_neg hres]

/-- C4 counterexample: `first_match_tick` is NOT the earliest tick among
the matched notes.  Target `{tick 100, notes [60, 64, 67]}` with chord
roll 4: note 60 arrives at tick 100 (first match), note 64 arrives at
tick 98 (within the roll, recorded).  The earliest matched tick is now
98, but `first_match_tick` stays 100. -/
theorem c4_counterexample :
    ((((Judge.new ⟨⟨5, 50⟩, 4, WrongNotePolicy.RecordOnly,
          AdvanceMode.OnResolve⟩).load_targets
        [⟨1, 100, [60, 64, 67], none, none⟩]).2.on_note_on
        ⟨100, 60, 100⟩).2.on_note_on ⟨98, 64, 100⟩).2.state =
      some ⟨[60, 64, 67].toFinset, [(60, 100), (64, 98)], 0, some 100⟩ ∧
    ([(60, 100), (64, 98)] : List (ℕ × ℤ)).foldr (fun p m => min p.2 m) 100 = 98 ∧
    ¬ ((some (100 : ℤ)) = some (98 : ℤ)) := by
  refine ⟨by decide, by decide, by decide⟩

/-- C4 witness: scenario E3 (chord roll) — target `{1, tick 300,
notes [60, 64]}`, chord roll 3, good window 6; after note 60 at tick 300,
note 64 at tick 302 resolves the target, and the amended theorem yields
the Hit with `delta_tick = first_match_tick - target.tick = 0`. -/
theorem c4_amended_first_match_recording_witness :
    ∃ g, JudgeEvent.Hit 1 g 0 0 ∈
      ((((Judge.new ⟨⟨2, 6⟩, 3, WrongNotePolicy.RecordOnly,
          AdvanceMode.OnResolve⟩).load_targets
        [⟨1, 300, [60, 64], none, none⟩]).2.on_note_on
        ⟨300, 60, 100⟩).2.on_note_on ⟨302, 64, 100⟩).1 := by
  obtain ⟨g, hg⟩ := (c4_amended_first_match_recording
    ((((Judge.new ⟨⟨2, 6⟩, 3, WrongNotePolicy.RecordOnly,
        AdvanceMode.OnResolve⟩).load_targets
      [⟨1, 300, [60, 64], none, none⟩]).2.on_note_on ⟨300, 60, 100⟩).2)
    ⟨302, 64, 100⟩ ⟨1, 300, [60, 64], none, none⟩
    ⟨[60, 64].toFinset, [(60, 300)], 0, some 300⟩
    (by decide) (by decide) (by decide) (by decide)).2.2.1 (by decide)
  refine ⟨g, ?_⟩
  rw [hg]
  exact List.mem_cons_self _ _

/-! ### Claim C9 -/

/-- Feed a sequence of player note-ons to the judge, accumulating the
emitted events (the way `process_midi_inputs` drives `on_note_on`). -/
def Judge.playAll (j : Judge) : List PlayerNoteOn → List JudgeEvent × Judge
  | [] => ([], j)
  | e :: rest =>
    let r := j.on_note_on e
    let r2 := r.2.playAll rest
    (r.1 ++ r2.1, r2.2)

theorem on_note_on_empty_step (j : Judge) (e : PlayerNoteOn) (T : TargetEvent)
    (st : TargetState) (hT : j.targets[j.idx]? = some T) (hS : j.state = some st)
    (hE : st.expected = ∅) (hle : e.tick ≤ T.tick + j.cfg.window.good) :
    (j.on_note_on e).1 = [] ∧
    (j.on_note_on e).2.targets = j.targets ∧
    (j.on_note_on e).2.idx = j.idx ∧
    (j.on_note_on e).2.cfg = j.cfg ∧
    ∃ st', (j.on_note_on e).2.state = some st' ∧ st'.expected = ∅ := by
  have hadv := advance_to_no_timeout j e.tick T st hT hS hle
  rw [Judge.on_note_on]
  simp only [hadv, hT, hS]
  by_cases hwin : e.tick < T.tick - j.cfg.window.good
  · simp only [if_pos hwin]
    refine ⟨?_, ?_, ?_, ?_, st, ?_, hE⟩ <;> simp [hS]
  · simp only [if_neg hwin]
    have hst1 : ∀ st1 : TargetState, st1 = (if e.tick ≤ T.tick + j.cfg.window.good
        then noteOnUpdate j.cfg st e else st) → st1.expected = ∅ ∧ st1.matched = st.matched := by
      intro st1 h
      rw [if_pos hle] at h
      rw [h, noteOnUpdate]
      rw [if_neg (by simp [hE])]
      rw [if_pos (by simp [hE])]
      exact ⟨hE, rfl⟩
    obtain ⟨hE1, _⟩ := hst1 _ rfl
    rw [if_neg (by
      intro hc
      exact hc.2 hE1)]
    refine ⟨rfl, rfl, rfl, rfl, _, rfl, hE1⟩

/-- C9: the judge operations are total by construction in this embedding
(every function above is a total Lean function), and a focused target with
an empty expected set never resolves: feeding any sequence of note-ons
whose ticks stay inside the target's good window produces no events at all
(in particular no Hit) and never advances the focus. -/
theorem c9_empty_target_never_resolves (j : Judge) (es : List PlayerNoteOn)
    (T : TargetEvent) (st : TargetState)
    (hT : j.targets[j.idx]? = some T) (hS : j.state = some st)
    (hE : st.expected = ∅)
    (hall : ∀ e ∈ es, e.tick ≤ T.tick + j.cfg.window.good) :
    (j.playAll es).1 = [] ∧
    (j.playAll es).2.idx = j.idx ∧
    (j.playAll es).2.targets = j.targets := by
  induction es generalizing j st with
  | nil => exact ⟨rfl, rfl, rfl⟩
  | cons e rest ih =>
    obtain ⟨h1, h2, h3, h4, st', h5, h6⟩ :=
      on_note_on_empty_step j e T st hT hS hE (hall e (by simp))
    have hT' : (j.on_note_on e).2.targets[(j.on_note_on e).2.idx]? = some T := by
      rw [h2, h3, hT]
    have hall' : ∀ x ∈ rest, x.tick ≤ T.tick + (j.on_note_on e).2.cfg.window.good := by
      intro x hx
      rw [h4]
      exact hall x (by simp [hx])
    obtain ⟨ih1, ih2, ih3⟩ := ih (j.on_note_on e).2 st' hT' h5 h6 hall'
    refine ⟨?_, ?_, ?_⟩
    · simp only [Judge.playAll, h1, ih1, List.nil_append]
    · simp only [Judge.playAll, ih2, h3]
    · simp only [Judge.playAll, ih3, h2]

/-- C9 witness: a target with an empty note set at tick 100 (good window
6): three in-window note-ons produce no events and leave the focus in
place. -/
theorem c9_empty_target_never_resolves_witness :
    (((Judge.new ⟨⟨2, 6⟩, 3, WrongNotePolicy.RecordOnly,
          AdvanceMode.OnResolve⟩).load_targets
        [⟨7, 100, [], none, none⟩]).2.playAll
        [⟨98, 60, 100⟩, ⟨100, 61, 100⟩, ⟨104, 62, 100⟩]).1 = [] ∧
    (((Judge.new ⟨⟨2, 6⟩, 3, WrongNotePolicy.RecordOnly,
          AdvanceMode.OnResolve⟩).load_targets
        [⟨7, 100, [], none, none⟩]).2.playAll
        [⟨98, 60, 100⟩, ⟨100, 61, 100⟩, ⟨104, 62, 100⟩]).2.idx = 0 := by
  obtain ⟨h1, h2, h3⟩ := c9_empty_target_never_resolves
    ((Judge.new ⟨⟨2, 6⟩, 3, WrongNotePolicy.RecordOnly,
        AdvanceMode.OnResolve⟩).load_targets [⟨7, 100, [], none, none⟩]).2
    [⟨98, 60, 100⟩, ⟨100, 61, 100⟩, ⟨104, 62, 100⟩]
    ⟨7, 100, [], none, none⟩ (freshState ⟨7, 100, [], none, none⟩)
    (by decide) (by decide) (by decide) (by decide)
  exact ⟨h1, h2.trans (by decide)⟩

/-! ### Claim C1 -/

theorem eventLeP_sample_le {a b : ScheduledEvent} (h : eventLeP a b) :
    a.sample_time ≤ b.sample_time := by
  rcases a with ⟨s1, b1, e1⟩
  rcases b with ⟨s2, b2, e2⟩
  simp only [eventLeP, eventLe, eventKey, keyLe, Bool.or_eq_true, Bool.and_eq_true,
    decide_eq_true_eq] at h
  simp only []
  omega

theorem drainQueue_all_lt (blockEnd : ℕ) (q : List ScheduledEvent)
    (h : ∀ e ∈ q, e.sample_time < blockEnd) :
    drainQueue blockEnd q = (q, none, []) := by
  induction q with
  | nil => rfl
  | cons e rest ih =>
    simp [drainQueue, h e (List.mem_cons_self e rest),
      ih (fun x hx => h x (List.mem_cons_of_mem e hx))]

theorem renderTrace_sorted (blockEnd : ℕ) (l : List ScheduledEvent) :
    ∀ cursor : ℕ,
      (∀ e ∈ l, e.sample_time < blockEnd) →
      List.Pairwise (fun a b => a.sample_time ≤ b.sample_time) l →
      (∀ e ∈ l, cursor ≤ e.sample_time) →
      renderTrace true blockEnd l cursor =
        l.map (fun e => (e.bus, e.event, e.sample_time)) := by
  induction l with
  | nil =>
    intro cursor _ _ _
    rfl
  | cons e rest ih =>
    intro cursor hlt hpw hcur
    rw [renderTrace, if_neg (by
      have := hlt e (List.mem_cons_self e rest)
      omega)]
    rw [if_neg (by simp)]
    have hmax : max e.sample_time cursor = e.sample_time :=
      max_eq_left (hcur e (List.mem_cons_self e rest))
    have hpw' := List.pairwise_cons.mp hpw
    simp only [hmax, List.map_cons, List.cons.injEq]
    exact ⟨trivial, ih e.sample_time (fun x hx => hlt x (List.mem_cons_of_mem e hx))
      hpw'.2 (fun x hx => hpw'.1 x hx)⟩

/-- C1 counterexample: `render` does not make exactly N `handle_event`
calls for every in-window queue — with `playback_enabled == false` a
queued Autopilot NoteOn inside the block is skipped, so one queued event
yields zero synth calls. -/
theorem c1_counterexample :
    (AudioGraph.render false none
      [ScheduledEvent.mk 0 Bus.Autopilot (MidiLikeEvent.NoteOn 60 100)] 0 4).calls.length = 0 ∧
    [ScheduledEvent.mk 0 Bus.Autopilot (MidiLikeEvent.NoteOn 60 100)].length = 1 ∧
    (∀ e ∈ [ScheduledEvent.mk 0 Bus.Autopilot (MidiLikeEvent.NoteOn 60 100)],
      0 ≤ e.sample_time ∧ e.sample_time < 0 + 4) := by
  refine ⟨by decide, by decide, by decide⟩

/-- C1 (amended): when `playback_enabled` is true (so the score-bus NoteOn
skip cannot fire), for every block `[start, start+frames)` and every queue
of events whose sample times all lie in the block (and no pending event),
`render` dispatches exactly one `handle_event` per queued event, in the
stable `(sample_time, rank, note_key)` order: the call trace is exactly
the sorted queue, a permutation of the input, pairwise ordered by the
tie-break key, each call at its event's own sample time; the pending slot
stays empty and the audio clock is set to `start + frames`. -/
theorem c1_amended_render_dispatch (start frames : ℕ) (queue : List ScheduledEvent)
    (hin : ∀ e ∈ queue, start ≤ e.sample_time ∧ e.sample_time < start + frames)
    (hbound : start + frames ≤ u64Max) :
    (AudioGraph.render true none queue start frames).calls =
      (List.insertionSort eventLeP queue).map (fun e => (e.bus, e.event, e.sample_time)) ∧
    (AudioGraph.render true none queue start frames).calls.length = queue.length ∧
    (List.insertionSort eventLeP queue).Perm queue ∧
    List.Pairwise eventLeP (List.insertionSort eventLeP queue) ∧
    (AudioGraph.render true none queue start frames).pending = none ∧
    (AudioGraph.render true none queue start frames).clock = start + frames := by
  have hBE : satAddU64 start frames = start + frames := min_eq_left hbound
  have hdrain : drainQueue (start + frames) queue = (queue, none, []) :=
    drainQueue_all_lt _ _ (fun e he => (hin e he).2)
  have hperm := List.perm_insertionSort eventLeP queue
  have hsorted := List.sorted_insertionSort eventLeP queue
  have hin' : ∀ e ∈ List.insertionSort eventLeP queue,
      start ≤ e.sample_time ∧ e.sample_time < start + frames :=
    fun e he => hin e (hperm.subset he)
  have htrace := renderTrace_sorted (start + frames)
    (List.insertionSort eventLeP queue) start
    (fun e he => (hin' e he).2)
    (hsorted.imp (fun h => eventLeP_sample_le h))
    (fun e he => (hin' e he).1)
  simp only [AudioGraph.render, hBE, collect_events, hdrain]
  refine ⟨htrace, ?_, hperm, hsorted, trivial, trivial⟩
  rw [htrace, List.length_map, hperm.length_eq]

/-- C1 witness: scenario E6 — queue `NoteOn{60}`, `NoteOff{60}`,
`Cc64{127}` all at sample 0 on the UserMonitor bus; one 64-frame block
dispatches exactly the three events in rank order Cc64(127), NoteOff(60),
NoteOn(60). -/
theorem c1_amended_render_dispatch_witness :
    (AudioGraph.render true none
      [ScheduledEvent.mk 0 Bus.UserMonitor (MidiLikeEvent.NoteOn 60 100),
       ScheduledEvent.mk 0 Bus.UserMonitor (MidiLikeEvent.NoteOff 60),
       ScheduledEvent.mk 0 Bus.UserMonitor (MidiLikeEvent.Cc64 127)] 0 64).calls =
      [(Bus.UserMonitor, MidiLikeEvent.Cc64 127, 0),
       (Bus.UserMonitor, MidiLikeEvent.NoteOff 60, 0),
       (Bus.UserMonitor, MidiLikeEvent.NoteOn 60 100, 0)] ∧
    (AudioGraph.render true none
      [ScheduledEvent.mk 0 Bus.UserMonitor (MidiLikeEvent.NoteOn 60 100),
       ScheduledEvent.mk 0 Bus.UserMonitor (MidiLikeEvent.NoteOff 60),
       ScheduledEvent.mk 0 Bus.UserMonitor (MidiLikeEvent.Cc64 127)] 0 64).calls.length =
      [ScheduledEvent.mk 0 Bus.UserMonitor (MidiLikeEvent.NoteOn 60 100),
       ScheduledEvent.mk 0 Bus.UserMonitor (MidiLikeEvent.NoteOff 60),
       ScheduledEvent.mk 0 Bus.UserMonitor (MidiLikeEvent.Cc64 127)].length :=
  ⟨by decide,
    (c1_amended_render_dispatch 0 64
      [ScheduledEvent.mk 0 Bus.UserMonitor (MidiLikeEvent.NoteOn 60 100),
       ScheduledEvent.mk 0 Bus.UserMonitor (MidiLikeEvent.NoteOff 60),
       ScheduledEvent.mk 0 Bus.UserMonitor (MidiLikeEvent.Cc64 127)]
      (by decide) (by decide)).2.1⟩

/-! ### Claim C7 -/

theorem accumSegments_map_tick (ppq : ℕ) (l : List TempoPoint) :
    ∀ us : ℤ, (accumSegments ppq us l).map TempoSegment.start_tick =
      l.map TempoPoint.tick := by
  induction l with
  | nil => intro us; rfl
  | cons p rest ih =>
    intro us
    cases rest with
    | nil => rfl
    | cons q rest2 => simp [accumSegments, ih]

theorem tempo_segments_core (ppq : ℕ) (pts : List TempoPoint)
    (hpos : ∀ p ∈ pts, 0 ≤ p.tick)
    (hnodup : (pts.map TempoPoint.tick).Nodup)
    (hmem0 : (0 : ℤ) ∈ pts.map TempoPoint.tick) :
    accumSegments ppq 0 (List.insertionSort tickLeP pts) ≠ [] ∧
    ((accumSegments ppq 0 (List.insertionSort tickLeP pts)).map
      TempoSegment.start_tick).head? = some 0 ∧
    List.Pairwise (fun a b : TempoSegment => a.start_tick < b.start_tick)
      (accumSegments ppq 0 (List.insertionSort tickLeP pts)) := by
  have hperm := List.perm_insertionSort tickLeP pts
  have hsorted := List.sorted_insertionSort tickLeP pts
  have hpermmap : List.Perm ((List.insertionSort tickLeP pts).map TempoPoint.tick)
      (pts.map TempoPoint.tick) := hperm.map TempoPoint.tick
  have hnodupS : ((List.insertionSort tickLeP pts).map TempoPoint.tick).Nodup :=
    (hpermmap.nodup_iff).mpr hnodup
  have hle : List.Pairwise (fun a b : ℤ => a ≤ b)
      ((List.insertionSort tickLeP pts).map TempoPoint.tick) :=
    List.pairwise_map.mpr (hsorted.imp (fun h => h))
  have hlt : List.Pairwise (fun a b : ℤ => a < b)
      ((List.insertionSort tickLeP pts).map TempoPoint.tick) :=
    (hle.and hnodupS).imp (fun h => lt_of_le_of_ne h.1 h.2)
  have hmap := accumSegments_map_tick ppq (List.insertionSort tickLeP pts) 0
  have hne : (List.insertionSort tickLeP pts).map TempoPoint.tick ≠ [] := by
    intro hc
    rw [hc] at hpermmap
    rw [hpermmap.symm.eq_nil] at hmem0
    simp at hmem0
  refine ⟨?_, ?_, ?_⟩
  · intro hc
    rw [← hmap, hc] at hne
    simp at hne
  · rw [hmap]
    rcases hS : (List.insertionSort tickLeP pts).map TempoPoint.tick with _ | ⟨t0, ts⟩
    · exact absurd hS hne
    · rw [hS] at hlt hpermmap
      have ht0mem : (0 : ℤ) ∈ t0 :: ts := hpermmap.symm.subset hmem0
      have hge : 0 ≤ t0 := by
        have ht0 : t0 ∈ pts.map TempoPoint.tick := hpermmap.subset (by simp)
        obtain ⟨p, hp, hpt⟩ := List.mem_map.mp ht0
        rw [← hpt]
        exact hpos p hp
      rcases List.mem_cons.mp ht0mem with h | h
      · rw [← h]
        rfl
      · have := (List.pairwise_cons.mp hlt).1 0 h
        simp only [List.head?_cons, Option.some.injEq]
        omega
  · exact List.pairwise_map.mp (hmap ▸ hlt)

/-- C7 counterexample: the segments are not strictly sorted for every
input — two tempo points at the same tick survive `TempoMap::new` as two
segments sharing `start_tick = 100`. -/
theorem c7_counterexample :
    ¬ List.Pairwise (fun a b : TempoSegment => a.start_tick < b.start_tick)
      (TempoMap.new 480 [⟨100, 400000⟩, ⟨100, 300000⟩]).segments := by
  decide

/-- C7 (amended): for every input list of TempoPoints with nonnegative
ticks, pairwise-distinct ticks, and such that a tick-0 point (if any) is
the first element, `TempoMap::new` yields a nonempty segment list whose
first segment starts at tick 0 (the synthetic 500000 us/quarter point is
prepended when the list is empty or does not start at tick 0) and whose
segments are sorted strictly increasingly by `start_tick`.  (Duplicated
input ticks — see the counterexample — or a non-leading tick-0 point break
strictness, which is why those hypotheses are required.) -/
theorem c7_amended_tempo_map_invariant (ppq : ℕ) (points : List TempoPoint)
    (hpos : ∀ p ∈ points, 0 ≤ p.tick)
    (hnodup : (points.map TempoPoint.tick).Nodup)
    (hzero : (∃ p0 rest, points = p0 :: rest ∧ p0.tick = 0) ∨
      (∀ p ∈ points, p.tick ≠ 0)) :
    (TempoMap.new ppq points).segments ≠ [] ∧
    ((TempoMap.new ppq points).segments.map TempoSegment.start_tick).head? =
      some 0 ∧
    List.Pairwise (fun a b : TempoSegment => a.start_tick < b.start_tick)
      (TempoMap.new ppq points).segments := by
  rcases hP : points with _ | ⟨p0, rest⟩
  · have hseg : (TempoMap.new ppq []).segments =
        accumSegments ppq 0 (List.insertionSort tickLeP [⟨0, 500000⟩]) := by
      simp [TempoMap.new]
    rw [hseg]
    exact tempo_segments_core ppq [⟨0, 500000⟩] (by simp) (by simp) (by simp)
  · subst hP
    by_cases h0 : p0.tick = 0
    · have hseg : (TempoMap.new ppq (p0 :: rest)).segments =
          accumSegments ppq 0 (List.insertionSort tickLeP (p0 :: rest)) := by
        simp [TempoMap.new, h0]
      rw [hseg]
      refine tempo_segments_core ppq (p0 :: rest) hpos hnodup ?_
      exact List.mem_map.mpr ⟨p0, List.mem_cons_self _ _, h0⟩
    · have hallne : ∀ p ∈ p0 :: rest, p.tick ≠ 0 := by
        rcases hzero with ⟨q0, qrest, hq, hqz⟩ | hall
        · injection hq with h1 h2
          rw [← h1] at hqz
          exact absurd hqz h0
        · exact hall
      have hseg : (TempoMap.new ppq (p0 :: rest)).segments =
          accumSegments ppq 0
            (List.insertionSort tickLeP ((⟨0, 500000⟩ : TempoPoint) :: p0 :: rest)) := by
        simp [TempoMap.new, h0]
      rw [hseg]
      refine tempo_segments_core ppq ((⟨0, 500000⟩ : TempoPoint) :: p0 :: rest) ?_ ?_ (by simp)
      · intro p hp
        rcases List.mem_cons.mp hp with h | h
        · rw [h]
        · exact hpos p h
      · rw [List.map_cons, List.nodup_cons]
        refine ⟨?_, hnodup⟩
        intro hmem
        obtain ⟨p, hp, hpt⟩ := List.mem_map.mp hmem
        exact hallne p hp hpt

/-- C7 witness: the amended invariant applied to `[{tick 240, 400000}]` at
ppq 480 — the synthetic 500000 us/quarter segment is prepended at tick 0
and the two segments are strictly sorted. -/
theorem c7_amended_tempo_map_invariant_witness :
    (TempoMap.new 480 [⟨240, 400000⟩]).segments =
      [⟨0, 0, 500000⟩, ⟨240, 250000, 400000⟩] ∧
    ((TempoMap.new 480 [⟨240, 400000⟩]).segments.map TempoSegment.start_tick).head? =
      some 0 ∧
    List.Pairwise (fun a b : TempoSegment => a.start_tick < b.start_tick)
      (TempoMap.new 480 [⟨240, 400000⟩]).segments :=
  ⟨by decide,
    (c7_amended_tempo_map_invariant 480 [⟨240, 400000⟩] (by decide) (by decide)
      (Or.inr (by decide))).2.1,
    (c7_amended_tempo_map_invariant 480 [⟨240, 400000⟩] (by decide) (by decide)
      (Or.inr (by decide))).2.2⟩

/-! ### Claim C5 -/

theorem route_bus_autopilot (s : Scheduler) (hand : Option Hand) (bus : Bus)
    (h : s.route_bus hand = some bus) : bus = Bus.Autopilot := by
  rw [Scheduler.route_bus.eq_def] at h
  rcases s.settings.mode with _ | _ <;> rcases hand with _ | ⟨_ | _⟩ <;>
    simp_all <;> split at h <;> simp_all

theorem scheduleLoop_spec (fuel : ℕ) :
    ∀ (s : Scheduler) (tr : Transport) (wet a b : ℤ),
      s.loop_range = some ⟨a, b⟩ →
      (∀ se ∈ (scheduleLoop fuel s tr wet).1.queue,
        se ∈ s.queue ∨ ∃ pe ∈ s.events, pe.tick < b ∧
          se = ScheduledEvent.mk (tr.tick_to_sample pe.tick) Bus.Autopilot pe.event) ∧
      (scheduleLoop fuel s tr wet).1.events = s.events ∧
      ((scheduleLoop fuel s tr wet).2 = tr ∨
        ((scheduleLoop fuel s tr wet).2 = tr.seek a ∧
          (scheduleLoop fuel s tr wet).1.cursor =
            s.events.findIdx (fun e => decide (a ≤ e.tick)) ∧
          (scheduleLoop fuel s tr wet).1.queue = [])) := by
  induction fuel with
  | zero =>
    intro s tr wet a b hloop
    exact ⟨fun se hse => Or.inl hse, rfl, Or.inl rfl⟩
  | succ n ih =>
    intro s tr wet a b hloop
    rcases hev : s.events[s.cursor]? with _ | ev
    · have hres : scheduleLoop (n + 1) s tr wet = (s, tr) := by
        rw [scheduleLoop, hev]
      rw [hres]
      exact ⟨fun se hse => Or.inl hse, rfl, Or.inl rfl⟩
    · by_cases hwin : wet < ev.tick
      · have hres : scheduleLoop (n + 1) s tr wet = (s, tr) := by
          rw [scheduleLoop, hev]
          simp [hwin]
        rw [hres]
        exact ⟨fun se hse => Or.inl hse, rfl, Or.inl rfl⟩
      · by_cases hedge : b ≤ ev.tick
        · have hres : scheduleLoop (n + 1) s tr wet =
              (Scheduler.seek s a, tr.seek a) := by
            rw [scheduleLoop, hev]
            simp only [if_neg hwin, hloop]
            simp [hedge]
          rw [hres]
          refine ⟨fun se hse => absurd hse (by simp [Scheduler.seek]), rfl,
            Or.inr ⟨rfl, rfl, rfl⟩⟩
        · have hstep : scheduleLoop (n + 1) s tr wet =
              scheduleLoop n { (match s.route_bus ev.hand with
                | some bus =>
                  { s with queue := s.queue ++
                      [ScheduledEvent.mk (tr.tick_to_sample ev.tick) bus ev.event] }
                | none => s) with cursor := (match s.route_bus ev.hand with
                | some bus =>
                  { s with queue := s.queue ++
                      [ScheduledEvent.mk (tr.tick_to_sample ev.tick) bus ev.event] }
                | none => s).cursor + 1 } tr wet := by
            rw [scheduleLoop, hev]
            simp only [if_neg hwin, hloop, decide_eq_false hedge]
            rfl
          rcases hroute : s.route_bus ev.hand with _ | bus
          · rw [hstep]
            simp only [hroute]
            obtain ⟨ih1, ih2, ih3⟩ := ih { s with cursor := s.cursor + 1 } tr wet a b hloop
            exact ⟨ih1, ih2, ih3⟩
          · have hbus : bus = Bus.Autopilot := route_bus_autopilot s ev.hand bus hroute
            subst hbus
            rw [hstep]
            simp only [hroute]
            obtain ⟨ih1, ih2, ih3⟩ := ih
              { s with
                  queue := s.queue ++
                    [ScheduledEvent.mk (tr.tick_to_sample ev.tick) Bus.Autopilot ev.event]
                  cursor := s.cursor + 1 } tr wet a b hloop
            refine ⟨?_, ih2, ih3⟩
            intro se hse
            rcases ih1 se hse with h | ⟨pe, hpe, hpet, hpee⟩
            · rcases List.mem_append.mp h with h2 | h2
              · exact Or.inl h2
              · refine Or.inr ⟨ev, ?_, by omega, by
                  simpa using h2⟩
                exact List.getElem?_mem hev
            · exact Or.inr ⟨pe, hpe, hpet, hpee⟩

/-- C5: with `loop_range = [a, b)` set and an empty internal queue, a
`schedule()` pass never emits a ScheduledEvent derived from a playback
event with `tick ≥ b`: every emitted event comes from a score event with
`tick < b`, stamped `sample_time = tick_to_sample(tick)` on Bus::Autopilot;
the internal queue ends the pass empty (so the property is preserved
across any sequence of calls); and the transport is either untouched or —
when the cursor reached an event with `tick ≥ b` inside the window — was
seeked to `a`, with the scheduler's cursor repositioned to the first event
with `tick ≥ a` and no further events yielded in that pass. -/
theorem c5_scheduler_loop_bound (s : Scheduler) (tr : Transport) (a b : ℤ)
    (hloop : s.loop_range = some ⟨a, b⟩) (hq : s.queue = []) :
    (∀ se ∈ (s.schedule tr).1, ∃ pe ∈ s.events, pe.tick < b ∧
      se = ScheduledEvent.mk (tr.tick_to_sample pe.tick) Bus.Autopilot pe.event) ∧
    (s.schedule tr).2.1.queue = [] ∧
    ((s.schedule tr).2.2 = tr ∨
      ((s.schedule tr).2.2 = tr.seek a ∧
        (s.schedule tr).2.1.cursor =
          s.events.findIdx (fun e => decide (a ≤ e.tick)) ∧
        (s.schedule tr).1 = [])) := by
  obtain ⟨h1, h2, h3⟩ := scheduleLoop_spec (s.events.length + 1) s tr
    ((tr.sample_to_tick (satAddU64 tr.now_sample
      (castU64 (rustRound ((s.lookahead_ms : ℚ) * (s.sample_rate_hz : ℚ) / 1000))))))
    a b hloop
  refine ⟨?_, rfl, ?_⟩
  · intro se hse
    rcases h1 se hse with h | h
    · rw [hq] at h
      simp at h
    · exact h
  · exact h3.imp (fun h => h) (fun h => ⟨h.1, h.2.1, h.2.2⟩)

/-- C5 witness: scenario E5's score (NoteOns at ticks 0, 240, 480, 720,
960; ppq 480, 500000 us/q, 48 kHz) with loop `[240, 2000)`, cursor at the
tick-480 event: the loop-bound theorem applies — every emitted event comes
from a score event with tick < 2000 at its `tick_to_sample` time on
Autopilot, and the pass leaves the queue empty. -/
theorem c5_scheduler_loop_bound_witness :
    (∀ se ∈ ((Scheduler.mk 30
        [⟨0, MidiLikeEvent.NoteOn 60 100, none⟩,
         ⟨240, MidiLikeEvent.NoteOn 62 100, none⟩,
         ⟨480, MidiLikeEvent.NoteOn 64 100, none⟩,
         ⟨720, MidiLikeEvent.NoteOn 65 100, none⟩,
         ⟨960, MidiLikeEvent.NoteOn 67 100, none⟩] 2 []
        (some ⟨240, 2000⟩) ⟨PlaybackMode.Demo, ⟨true, true⟩⟩ 48000).schedule
        ((Transport.new 480 48000 [⟨0, 500000⟩]).seek 700)).1,
      ∃ pe ∈ [⟨0, MidiLikeEvent.NoteOn 60 100, none⟩,
         ⟨240, MidiLikeEvent.NoteOn 62 100, none⟩,
         ⟨480, MidiLikeEvent.NoteOn 64 100, none⟩,
         ⟨720, MidiLikeEvent.NoteOn 65 100, none⟩,
         (⟨960, MidiLikeEvent.NoteOn 67 100, none⟩ : PlaybackMidiEvent)],
        pe.tick < 2000 ∧
        se = ScheduledEvent.mk
          (((Transport.new 480 48000 [⟨0, 500000⟩]).seek 700).tick_to_sample pe.tick)
          Bus.Autopilot pe.event) ∧
    ((Scheduler.mk 30
        [⟨0, MidiLikeEvent.NoteOn 60 100, none⟩,
         ⟨240, MidiLikeEvent.NoteOn 62 100, none⟩,
         ⟨480, MidiLikeEvent.NoteOn 64 100, none⟩,
         ⟨720, MidiLikeEvent.NoteOn 65 100, none⟩,
         ⟨960, MidiLikeEvent.NoteOn 67 100, none⟩] 2 []
        (some ⟨240, 2000⟩) ⟨PlaybackMode.Demo, ⟨true, true⟩⟩ 48000).schedule
        ((Transport.new 480 48000 [⟨0, 500000⟩]).seek 700)).2.1.queue = [] := by
  obtain ⟨h1, h2, h3⟩ := c5_scheduler_loop_bound
    (Scheduler.mk 30
      [⟨0, MidiLikeEvent.NoteOn 60 100, none⟩,
       ⟨240, MidiLikeEvent.NoteOn 62 100, none⟩,
       ⟨480, MidiLikeEvent.NoteOn 64 100, none⟩,
       ⟨720, MidiLikeEvent.NoteOn 65 100, none⟩,
       ⟨960, MidiLikeEvent.NoteOn 67 100, none⟩] 2 []
      (some ⟨240, 2000⟩) ⟨PlaybackMode.Demo, ⟨true, true⟩⟩ 48000)
    ((Transport.new 480 48000 [⟨0, 500000⟩]).seek 700) 240 2000 rfl rfl
  exact ⟨h1, h2⟩

/-- C10 witness: the gating theorem applied at a concrete parameter set
and synth (identical override functions discharge the hypotheses): with
monitoring off the calls are exactly `[Autopilot, MetronomeFx]`, and with
playback off the Autopilot bus volume reads 0. -/
theorem c10_monitor_disable_gates_synthesis_witness :
    (render_segment
      { AudioParams.mk 1 1 1 1 true true with monitor_enabled := false }
      (fun _ => [1]) (fun _ => [1]) 1 1).calls = [Bus.Autopilot, Bus.MetronomeFx] ∧
    ({ AudioParams.mk 1 1 1 1 true true with playback_enabled := false } :
      AudioParams).bus Bus.Autopilot = 0 :=
  ⟨(c10_monitor_disable_gates_synthesis (AudioParams.mk 1 1 1 1 true true)
      (fun _ => [1]) (fun _ => [1]) (fun _ => [1]) (fun _ => [1]) 1 1
      (fun _ _ => rfl) (fun _ _ => rfl)).1,
    (c10_monitor_disable_gates_synthesis (AudioParams.mk 1 1 1 1 true true)
      (fun _ => [1]) (fun _ => [1]) (fun _ => [1]) (fun _ => [1]) 1 1
      (fun _ _ => rfl) (fun _ _ => rfl)).2.2.2.1⟩
